import Mathlib

/-!
# strava-segment-waypoints: a shallow embedding of `main.go`

The program reads a token and a list of segment identifiers, fetches every
segment from the remote API, turns each one into a start and an end waypoint
and writes one GPX document to its output.

Everything the program does to the outside (HTTP round trips, serialising the
document, writing to the sink, printing to the error stream) is recorded in an
explicit trace of events; the outside answers through the functions of `Env`,
each of which may depend on the whole history so far.  Go strings are Lean
strings (so command-line arguments and status texts are taken to be valid
UTF-8), `int64` values are integers kept inside the 64-bit range by the
parsing code, and a `float64` is carried around as its bit pattern and never
computed with.
-/

namespace StravaSegmentWaypoints

deriving instance DecidableEq for Except

/-! ## Go errors -/

/-- Error values as the program builds them: `text` is an error that wraps
nothing (`errors.New`, `fmt.Errorf` without `%w`, errors of libraries);
`wrapped pre inner` is `fmt.Errorf(pre + "%w", inner)`. -/
inductive GoError where
  | text (msg : String)
  | wrapped (pre : String) (inner : GoError)
  deriving DecidableEq, Repr

/-- The `Error()` method: the message of the error. -/
def GoError.Error : GoError → String
  | .text msg => msg
  | .wrapped pre inner => pre ++ inner.Error

/-- The `Unwrap()` method: the error wrapped with `%w`, if there is one. -/
def GoError.Unwrap : GoError → Option GoError
  | .text _ => none
  | .wrapped _ inner => some inner

/-- Substring test on character lists: does `needle` occur somewhere in `hay`. -/
def occursIn (needle : List Char) : List Char → Bool
  | [] => needle.isEmpty
  | c :: cs => needle.isPrefixOf (c :: cs) || occursIn needle cs

/-- Substring test on strings. -/
def containsText (hay needle : String) : Bool :=
  occursIn needle.data hay.data

/-! ## The parts of `strconv` and `fmt` the program relies on -/

/-- The digit table `lowerhex` of package strconv. -/
def lowerhex (i : Nat) : Char :=
  "0123456789abcdef".data.getD i '0'

/-- Go `utf8.ValidRune`: in range and not a surrogate half. -/
def ValidRune (r : Nat) : Bool :=
  r < 0xD800 || (0xDFFF < r && r ≤ 0x10FFFF)

/-- Go `strconv.IsPrint`.  Runes up to U+00FF are decided by the explicit
comparisons of the library; for the others the library searches its Unicode
tables, which are the parameter `wide`. -/
def IsPrint (wide : Nat → Bool) (r : Nat) : Bool :=
  if r ≤ 0xFF then
    if 0x20 ≤ r ∧ r ≤ 0x7E then true
    else if 0xA1 ≤ r ∧ r ≤ 0xFF then r != 0xAD
    else false
  else wide r

/-- Go `strconv.appendEscapedRune` with `ASCIIonly` and `graphicOnly` false:
the text of one rune inside a quoted literal delimited by `quote`. -/
def appendEscapedRune (wide : Nat → Bool) (r : Nat) (quote : Char) : List Char :=
  let bs := Char.ofNat 92
  if r = quote.toNat ∨ r = 92 then [bs, Char.ofNat r]
  else if IsPrint wide r then [Char.ofNat r]
  else if r = 7 then [bs, 'a']
  else if r = 8 then [bs, 'b']
  else if r = 12 then [bs, 'f']
  else if r = 10 then [bs, 'n']
  else if r = 13 then [bs, 'r']
  else if r = 9 then [bs, 't']
  else if r = 11 then [bs, 'v']
  else if r < 0x20 ∨ r = 0x7f then [bs, 'x', lowerhex (r / 16 % 16), lowerhex (r % 16)]
  else
    let r := if ValidRune r then r else 0xFFFD
    if r < 0x10000 then
      [bs, 'u'] ++ [12, 8, 4, 0].map (fun s => lowerhex (r / 2 ^ s % 16))
    else
      [bs, 'U'] ++ [28, 24, 20, 16, 12, 8, 4, 0].map (fun s => lowerhex (r / 2 ^ s % 16))

/-- Go `strconv.AppendQuoteRune`: a rune as a single-quoted Go character
literal; an invalid rune is replaced by U+FFFD first. -/
def QuoteRune (wide : Nat → Bool) (r : Nat) : String :=
  let q := Char.ofNat 39
  let r := if ValidRune r then r else 0xFFFD
  ⟨[q] ++ appendEscapedRune wide r q ++ [q]⟩

/-- Go `strconv.Quote`: a string as a double-quoted Go string literal. -/
def Quote (wide : Nat → Bool) (s : String) : String :=
  let q := Char.ofNat 34
  ⟨[q] ++ (s.data.map (fun c => appendEscapedRune wide c.toNat q)).flatten ++ [q]⟩

/-- The verb `%d` of package fmt on an `int64`: the decimal text. -/
def fmtD (v : Int) : String :=
  if v < 0 then "-" ++ Nat.repr v.natAbs else Nat.repr v.natAbs

/-- The verb `%q` of package fmt on an `int64` (`fmtInteger` then `fmtQc`):
the value is converted to `uint64` and printed as a quoted character
literal, U+FFFD standing in for whatever exceeds `utf8.MaxRune`. -/
def fmtQ (wide : Nat → Bool) (v : Int) : String :=
  let c := (v % 2 ^ 64).toNat
  let r := if c > 0x10FFFF then 0xFFFD else c
  QuoteRune wide r

/-- The digit value `ParseUint` gives a byte: decimal digits, then letters of
either case counting from ten; nothing for any other byte. -/
def digitVal (c : Char) : Option Nat :=
  let lower := c.toNat ||| 0x20
  if 48 ≤ c.toNat ∧ c.toNat ≤ 57 then some (c.toNat - 48)
  else if 97 ≤ lower ∧ lower ≤ 122 then some (lower - 97 + 10)
  else none

/-- Failures of the number parsers: the two sentinel errors of strconv. -/
inductive NumErr where
  | ErrSyntax
  | ErrRange
  deriving DecidableEq, Repr

/-- The digit loop of Go `strconv.ParseUint` for an explicit base between 2
and 36 at bit size 64, with the accumulator `n` a `uint64`; the result is the
pair of values the Go function returns. -/
def ParseUintLoop (base : Nat) : List Char → Nat → Nat × Option NumErr
  | [], n => (n, none)
  | c :: cs, n =>
    match digitVal c with
    | none => (0, some .ErrSyntax)
    | some d =>
      if d ≥ base then (0, some .ErrSyntax)
      else if n ≥ (2 ^ 64 - 1) / base + 1 then (2 ^ 64 - 1, some .ErrRange)
      else
        let n := n * base % 2 ^ 64
        let n1 := (n + d) % 2 ^ 64
        if n1 < n ∨ n1 > 2 ^ 64 - 1 then (2 ^ 64 - 1, some .ErrRange)
        else ParseUintLoop base cs n1

/-- Go `strconv.ParseUint(s, base, 64)` for an explicit base. -/
def ParseUint (s : List Char) (base : Nat) : Nat × Option NumErr :=
  if s = [] then (0, some .ErrSyntax) else ParseUintLoop base s 0

/-- Go `strconv.ParseInt(s, base, 64)` for an explicit base: an optional sign,
then the digits, then the range check against the cutoff `2^63`. -/
def ParseIntCore (s : List Char) (base : Nat) : Except NumErr Int :=
  match s with
  | [] => .error .ErrSyntax
  | c :: cs =>
    let neg := c = '-'
    let digits := if c = '+' ∨ c = '-' then cs else c :: cs
    match ParseUint digits base with
    | (_, some .ErrSyntax) => .error .ErrSyntax
    | (un, _) =>
      if ¬ neg ∧ un ≥ 2 ^ 63 then .error .ErrRange
      else if neg ∧ un > 2 ^ 63 then .error .ErrRange
      else .ok (if neg then - (un : Int) else (un : Int))

/-- The message of a `*strconv.NumError` of function `ParseInt`. -/
def NumError (wide : Nat → Bool) (num : String) (e : NumErr) : GoError :=
  .text ("strconv.ParseInt: parsing " ++ Quote wide num ++ ": " ++
    (match e with
     | .ErrSyntax => "invalid syntax"
     | .ErrRange => "value out of range"))

/-- Go `strconv.ParseInt(s, 10, 64)` with its error value. -/
def ParseInt (wide : Nat → Bool) (s : String) : Except GoError Int :=
  match ParseIntCore s.data 10 with
  | .error e => .error (NumError wide s e)
  | .ok n => .ok n

/-! ## Data: the library types the program fills in -/

/-- A Go `float64`, carried as its IEEE-754 bit pattern; the program only
moves such values around.  The zero value is `+0`. -/
structure Float64 where
  bits : Nat
  deriving DecidableEq, Repr

/-- The zero value of `float64`. -/
def Float64.zero : Float64 := ⟨0⟩

/-- The library type `gpx.NullableFloat64`: a value and the flag that says
whether it is set.  The zero value is the unset one. -/
structure NullableFloat64 where
  data : Float64 := Float64.zero
  notNull : Bool := false
  deriving DecidableEq, Repr

/-- The library type `gpx.Point`. -/
structure Point where
  Latitude : Float64 := Float64.zero
  Longitude : Float64 := Float64.zero
  Elevation : NullableFloat64 := {}
  deriving DecidableEq, Repr

/-- The library type `gpx.GPXPoint`, with its descriptive fields (`Typ` is
the field `Type`, a reserved word here); the fields of the library type that
are left out (time stamp, accuracy information) are never assigned by the
program. -/
structure GPXPoint where
  Point : Point := {}
  Name : String := ""
  Comment : String := ""
  Description : String := ""
  Source : String := ""
  Symbol : String := ""
  Typ : String := ""
  deriving DecidableEq, Repr

/-- The library type `gpx.GPX`, the document handed to the serializer, with
its metadata fields and the waypoints; routes and tracks, which the program
never assigns, are left out. -/
structure GPX where
  XMLNs : String := ""
  Version : String := ""
  Creator : String := ""
  Name : String := ""
  Description : String := ""
  AuthorName : String := ""
  AuthorEmail : String := ""
  Keywords : String := ""
  Waypoints : List GPXPoint := []
  deriving DecidableEq, Repr

/-- The type `stravaLatLng`, a `[2]float64`: latitude then longitude. -/
structure stravaLatLng where
  at0 : Float64 := Float64.zero
  at1 : Float64 := Float64.zero
  deriving DecidableEq, Repr

/-- The anonymous struct `segment` the response body is decoded into. -/
structure Segment where
  Name : String := ""
  ID : Int := 0
  Start : stravaLatLng := {}
  End : stravaLatLng := {}
  deriving DecidableEq, Repr

/-! ## JSON decoding into the segment struct (package encoding/json) -/

/-- A JSON value as the decoder scans it; a number keeps its literal text. -/
inductive JSON where
  | null
  | bool (b : Bool)
  | number (lit : String)
  | string (s : String)
  | array (elems : List JSON)
  | object (members : List (String × JSON))

/-- The fields of the segment struct. -/
inductive Field where
  | Name
  | ID
  | Start
  | End
  deriving DecidableEq, Repr

/-- The JSON names of the fields, from the struct tags, in declaration order. -/
def fieldNames : List (String × Field) :=
  [("name", .Name), ("id", .ID), ("start_latlng", .Start), ("end_latlng", .End)]

/-- One character of the decoder's folded name: ASCII letters go to upper
case and a rune beyond ASCII goes to the smallest rune of its case-folding
orbit.  The only orbits that reach into ASCII are those of U+017F (long s)
and U+212A (Kelvin sign); every other rune beyond ASCII folds to a rune beyond
ASCII and is kept as it is here, which decides equality with the folded name
of a field (all ASCII) the same way. -/
def foldChar (c : Char) : Char :=
  if 97 ≤ c.toNat ∧ c.toNat ≤ 122 then Char.ofNat (c.toNat - 32)
  else if c.toNat = 0x17F then 'S'
  else if c.toNat = 0x212A then 'K'
  else c

/-- The decoder's `foldName`. -/
def foldName (s : String) : String :=
  ⟨s.data.map foldChar⟩

/-- The field an object key selects: the field of exactly that name,
otherwise the field whose folded name equals the folded key, otherwise none
(the member is skipped). -/
def fieldFor (key : String) : Option Field :=
  match fieldNames.find? (fun p => p.1 == key) with
  | some p => some p.2
  | none => (fieldNames.find? (fun p => foldName p.1 == foldName key)).map (fun p => p.2)

/-- The text of a `*json.UnmarshalTypeError` for a value that does not fit
the Go type `typ`, inside the field named `field` (empty at the top level). -/
def UnmarshalTypeError (value typ field : String) : GoError :=
  if field = "" then
    .text ("json: cannot unmarshal " ++ value ++ " into Go value of type " ++ typ)
  else
    .text ("json: cannot unmarshal " ++ value ++ " into Go struct field ." ++ field ++
      " of type " ++ typ)

/-- The decoder's `saveError`: only the earliest error is kept. -/
def saveError (saved err : Option GoError) : Option GoError :=
  match saved with
  | some e => some e
  | none => err

/-- Decoding a JSON value into a `string` field that holds `cur`: the new
value of the field and the type error, if any. -/
def storeString (field : String) (cur : String) : JSON → String × Option GoError
  | .null => (cur, none)
  | .string s => (s, none)
  | .bool _ => (cur, some (UnmarshalTypeError "bool" "string" field))
  | .number _ => (cur, some (UnmarshalTypeError "number" "string" field))
  | .array _ => (cur, some (UnmarshalTypeError "array" "string" field))
  | .object _ => (cur, some (UnmarshalTypeError "object" "string" field))

/-- Decoding a JSON value into an `int64` field: a number literal goes
through `strconv.ParseInt(lit, 10, 64)`. -/
def storeInt64 (field : String) (cur : Int) : JSON → Int × Option GoError
  | .null => (cur, none)
  | .number lit =>
    match ParseIntCore lit.data 10 with
    | .ok n => (n, none)
    | .error _ => (cur, some (UnmarshalTypeError ("number " ++ lit) "int64" field))
  | .bool _ => (cur, some (UnmarshalTypeError "bool" "int64" field))
  | .string _ => (cur, some (UnmarshalTypeError "string" "int64" field))
  | .array _ => (cur, some (UnmarshalTypeError "array" "int64" field))
  | .object _ => (cur, some (UnmarshalTypeError "object" "int64" field))

/-- Decoding a JSON value into a `float64` array element: a number literal
goes through `strconv.ParseFloat(lit, 64)`, here `parseFloat`, which fails on
a literal outside the range of the type. -/
def storeFloat64 (parseFloat : String → Option Float64) (field : String) (cur : Float64) :
    JSON → Float64 × Option GoError
  | .null => (cur, none)
  | .number lit =>
    match parseFloat lit with
    | some x => (x, none)
    | none => (cur, some (UnmarshalTypeError ("number " ++ lit) "float64" field))
  | .bool _ => (cur, some (UnmarshalTypeError "bool" "float64" field))
  | .string _ => (cur, some (UnmarshalTypeError "string" "float64" field))
  | .array _ => (cur, some (UnmarshalTypeError "array" "float64" field))
  | .object _ => (cur, some (UnmarshalTypeError "object" "float64" field))

/-- Decoding a JSON value into a `stravaLatLng` field: the elements of a JSON
array are decoded into the corresponding elements of the Go array, elements
past the second are skipped, and elements the JSON array does not reach are
set to zero. -/
def storeLatLng (parseFloat : String → Option Float64) (field : String) (cur : stravaLatLng) :
    JSON → stravaLatLng × Option GoError
  | .null => (cur, none)
  | .array [] => ({ at0 := Float64.zero, at1 := Float64.zero }, none)
  | .array [a] =>
    let r0 := storeFloat64 parseFloat field cur.at0 a
    ({ at0 := r0.1, at1 := Float64.zero }, r0.2)
  | .array (a :: b :: _) =>
    let r0 := storeFloat64 parseFloat field cur.at0 a
    let r1 := storeFloat64 parseFloat field cur.at1 b
    ({ at0 := r0.1, at1 := r1.1 }, saveError r0.2 r1.2)
  | .bool _ => (cur, some (UnmarshalTypeError "bool" "main.stravaLatLng" field))
  | .number _ => (cur, some (UnmarshalTypeError "number" "main.stravaLatLng" field))
  | .string _ => (cur, some (UnmarshalTypeError "string" "main.stravaLatLng" field))
  | .object _ => (cur, some (UnmarshalTypeError "object" "main.stravaLatLng" field))

/-- One member of a JSON object decoded into the struct: the selected field
is updated and an error is saved unless one was saved before; a member that
selects no field is skipped. -/
def storeMember (parseFloat : String → Option Float64) (st : Segment × Option GoError)
    (m : String × JSON) : Segment × Option GoError :=
  match fieldFor m.1 with
  | none => st
  | some .Name =>
    let r := storeString "name" st.1.Name m.2
    ({ st.1 with Name := r.1 }, saveError st.2 r.2)
  | some .ID =>
    let r := storeInt64 "id" st.1.ID m.2
    ({ st.1 with ID := r.1 }, saveError st.2 r.2)
  | some .Start =>
    let r := storeLatLng parseFloat "start_latlng" st.1.Start m.2
    ({ st.1 with Start := r.1 }, saveError st.2 r.2)
  | some .End =>
    let r := storeLatLng parseFloat "end_latlng" st.1.End m.2
    ({ st.1 with End := r.1 }, saveError st.2 r.2)

/-- The name reflection prints for the anonymous struct type. -/
def segmentTypeName : String :=
  "struct \x7b Name string \"json:\\\"name\\\"\"; ID int64 \"json:\\\"id\\\"\"; " ++
  "Start main.stravaLatLng \"json:\\\"start_latlng\\\"\"; " ++
  "End main.stravaLatLng \"json:\\\"end_latlng\\\"\" \x7d"

/-- Decoding a JSON value into the struct: the members of an object are
decoded one after the other, `null` changes nothing, any other value is a
type error. -/
def storeSegment (parseFloat : String → Option Float64) (cur : Segment) :
    JSON → Segment × Option GoError
  | .null => (cur, none)
  | .object members => members.foldl (storeMember parseFloat) (cur, none)
  | .bool _ => (cur, some (UnmarshalTypeError "bool" segmentTypeName ""))
  | .number _ => (cur, some (UnmarshalTypeError "number" segmentTypeName ""))
  | .string _ => (cur, some (UnmarshalTypeError "string" segmentTypeName ""))
  | .array _ => (cur, some (UnmarshalTypeError "array" segmentTypeName ""))

/-- The call `json.NewDecoder(res.Body).Decode(&segment)` on a zero `segment`.
The body is given by what the decoder reads from it: an error when no JSON
value can be read (read failure, end of input, syntax error), otherwise the
first JSON value of the stream.  The saved type error, if any, is returned
once the value has been decoded. -/
def Decode (parseFloat : String → Option Float64) (body : Except GoError JSON) :
    Except GoError Segment :=
  match body with
  | .error err => .error err
  | .ok v =>
    match storeSegment parseFloat {} v with
    | (segment, none) => .ok segment
    | (_, some err) => .error err

/-! ## The outside world -/

/-- The part of `http.Request` the program sets. -/
structure Request where
  Method : String
  URL : String
  Header : List (String × String) := []
  deriving DecidableEq, Repr

/-- The part of `http.Response` the program reads. -/
structure Response where
  StatusCode : Int
  Status : String
  Body : Except GoError JSON

/-- What the program does to the outside, in the order it does it. -/
inductive Event where
  | httpDo (req : Request)
  | toXml (doc : GPX)
  | write (p : List UInt8)
  | stderr (text : String)
  deriving DecidableEq, Repr

/-- An `io.Writer`: the error of a `Write` call, given the history. -/
abbrev Writer := List Event → List UInt8 → Option GoError

/-- The collaborators of the program.  `NewRequestWithContext` builds a
request from a method and a URL, `Do` is the round trip of the HTTP client
(a timeout is one of its errors), `ToXml` is the serializer of the GPX
library, `Stdout` is the standard output, `ParseFloat` and `wide` are the
library tables the embedding does not spell out. -/
structure Env where
  NewRequestWithContext : String → String → Except GoError Request
  Do : List Event → Request → Except GoError Response
  ToXml : GPX → Except GoError (List UInt8)
  Stdout : Writer
  ParseFloat : String → Option Float64
  wide : Nat → Bool

/-- The HTTP requests of a trace. -/
def requestsOf : List Event → List Request
  | [] => []
  | .httpDo req :: rest => req :: requestsOf rest
  | _ :: rest => requestsOf rest

/-- The documents handed to the serializer in a trace. -/
def serializedOf : List Event → List GPX
  | [] => []
  | .toXml doc :: rest => doc :: serializedOf rest
  | _ :: rest => serializedOf rest

/-- The byte slices written to the sink in a trace. -/
def writesOf : List Event → List (List UInt8)
  | [] => []
  | .write p :: rest => p :: writesOf rest
  | _ :: rest => writesOf rest

/-- The texts printed to the error stream in a trace. -/
def stderrOf : List Event → List String
  | [] => []
  | .stderr text :: rest => text :: stderrOf rest
  | _ :: rest => stderrOf rest

/-! ## The program -/

/-- The constant `usage`. -/
def usage : String :=
  "Usage: strava-segment-waypoints --token <token> <segment_id> [<segment_id>...]"

/-- The function `segmentWaypoints`: one request for the segment, then the
status check, the decoding of the body and the two waypoints. -/
def segmentWaypoints (env : Env) (segmentID : Int) (token : String) (tr : List Event) :
    Except GoError (List GPXPoint) × List Event :=
  let url := "https://www.strava.com/api/v3/segments/" ++ fmtD segmentID
  match env.NewRequestWithContext "GET" url with
  | .error err =>
    (.error (.wrapped ("generating request for segment ID:" ++ fmtQ env.wide segmentID ++ ": ")
      err), tr)
  | .ok req =>
    let req := { req with Header := req.Header ++ [("Authorization", "Bearer " ++ token)] }
    match env.Do tr req with
    | .error err =>
      (.error (.wrapped ("making request for segment ID:" ++ fmtQ env.wide segmentID ++ ": ")
        err), tr ++ [.httpDo req])
    | .ok res =>
      if res.StatusCode ≠ 200 then
        (.error (.text ("request for segment ID:" ++ fmtQ env.wide segmentID ++
          " returned non-200 status code: " ++ res.Status)), tr ++ [.httpDo req])
      else
        match Decode env.ParseFloat res.Body with
        | .error err =>
          (.error (.wrapped ("decoding segment response for segment ID:" ++
            fmtQ env.wide segmentID ++ ": ") err), tr ++ [.httpDo req])
        | .ok segment =>
          (.ok [
            { Point := { Latitude := segment.Start.at0, Longitude := segment.Start.at1,
                         Elevation := {} },
              Name := segment.Name ++ " (start)",
              Symbol := "Flag, Green",
              Typ := "user" },
            { Point := { Latitude := segment.End.at0, Longitude := segment.End.at1,
                         Elevation := {} },
              Name := segment.Name ++ " (end)",
              Symbol := "Flag, Red",
              Typ := "user" }], tr ++ [.httpDo req])

/-- The loop of `writeSegments` over the segment IDs, with the waypoints
collected so far. -/
def collectWaypoints (env : Env) (token : String) :
    List Int → List GPXPoint → List Event → Except GoError (List GPXPoint) × List Event
  | [], waypoints, tr => (.ok waypoints, tr)
  | segmentID :: rest, waypoints, tr =>
    match segmentWaypoints env segmentID token tr with
    | (.error err, tr1) =>
      (.error (.wrapped ("getting segment waypoints for segment:" ++ fmtQ env.wide segmentID ++
        ": ") err), tr1)
    | (.ok pts, tr1) => collectWaypoints env token rest (waypoints ++ pts) tr1

/-- The function `writeSegments`: the error it returns (none for `nil`) and
the trace. -/
def writeSegments (env : Env) (w : Writer) (token : String) (segmentIDs : List Int)
    (tr : List Event) : Option GoError × List Event :=
  match collectWaypoints env token segmentIDs [] tr with
  | (.error err, tr1) => (some err, tr1)
  | (.ok waypoints, tr1) =>
    let doc : GPX :=
      { Creator := "https://www.github.com/glynternet/strava-segment-waypoints",
        Name := "",
        Waypoints := waypoints }
    match env.ToXml doc with
    | .error err => (some (.wrapped "creating GPX XML output: " err), tr1 ++ [.toXml doc])
    | .ok xml =>
      match w (tr1 ++ [.toXml doc]) xml with
      | some err =>
        (some (.wrapped "writing GPX XML output: " err), tr1 ++ [.toXml doc, .write xml])
      | none => (none, tr1 ++ [.toXml doc, .write xml])

/-- The loop of `setup` over the positional arguments. -/
def parseSegmentIDs (wide : Nat → Bool) : List String → List Int → Except GoError (List Int)
  | [], segmentIDs => .ok segmentIDs
  | arg :: rest, segmentIDs =>
    match ParseInt wide arg with
    | .error err => .error err
    | .ok id => parseSegmentIDs wide rest (segmentIDs ++ [id])

/-- The function `setup`, on what the flag package yields once it has parsed
the command line: the value of the `token` flag (empty when the flag is not
given) and the positional arguments `flag.Args()`. -/
def setup (wide : Nat → Bool) (token : String) (args : List String) :
    Except GoError (String × List Int) :=
  if token = "" then .error (.text "must provide token using --token flag")
  else if args.length = 0 then .error (.text "must provide at least one segment ID")
  else
    match parseSegmentIDs wide args [] with
    | .error err => .error err
    | .ok segmentIDs => .ok (token, segmentIDs)

/-- The function `main`: the exit status of the process and the trace.  The
status is 22 when `os.Exit(22)` is reached and 0 when `main` returns. -/
def main (env : Env) (token : String) (args : List String) (tr : List Event) :
    Nat × List Event :=
  match setup env.wide token args with
  | .error err =>
    (22, tr ++ [.stderr ("Error: " ++ err.Error ++ "\n"), .stderr (usage ++ "\n")])
  | .ok (token, segmentIDs) =>
    match writeSegments env env.Stdout token segmentIDs tr with
    | (some err, tr1) => (0, tr1 ++ [.stderr ("Error: " ++ err.Error ++ "\n")])
    | (none, tr1) => (0, tr1)

/-! ## Vocabulary of the specification -/

/-- The URL of the resource of one segment, as `segmentWaypoints` builds it. -/
def segmentURL (segmentID : Int) : String :=
  "https://www.strava.com/api/v3/segments/" ++ fmtD segmentID

/-- The request `segmentWaypoints` sends once `req` has been built: `req` with
the authorization header added. -/
def authorized (req : Request) (token : String) : Request :=
  { req with Header := req.Header ++ [("Authorization", "Bearer " ++ token)] }

/-- The start waypoint of a decoded segment, in the words of the
specification (section 4.2). -/
def startWaypoint (segment : Segment) : GPXPoint :=
  { Point := { Latitude := segment.Start.at0, Longitude := segment.Start.at1,
               Elevation := { data := Float64.zero, notNull := false } },
    Name := segment.Name ++ " (start)", Comment := "", Description := "", Source := "",
    Symbol := "Flag, Green", Typ := "user" }

/-- The end waypoint of a decoded segment, in the words of the specification
(section 4.2). -/
def endWaypoint (segment : Segment) : GPXPoint :=
  { Point := { Latitude := segment.End.at0, Longitude := segment.End.at1,
               Elevation := { data := Float64.zero, notNull := false } },
    Name := segment.Name ++ " (end)", Comment := "", Description := "", Source := "",
    Symbol := "Flag, Red", Typ := "user" }

/-- The fetches of a list of segment IDs one after the other, each in the
history the previous ones leave behind: the result of every fetch, in input
order, and the final trace. -/
def fetchEach (env : Env) (token : String) :
    List Int → List Event → List (Except GoError (List GPXPoint)) × List Event
  | [], tr => ([], tr)
  | segmentID :: rest, tr =>
    let r := segmentWaypoints env segmentID token tr
    let rs := fetchEach env token rest r.2
    (r.1 :: rs.1, rs.2)

/-- All fetches of a list of results succeeded. -/
def allSucceed (results : List (Except GoError (List GPXPoint))) : Prop :=
  ∀ r ∈ results, ∃ pts, r = .ok pts

/-- Whether one fetch succeeded can be read off its result. -/
instance decSucceeded (r : Except GoError (List GPXPoint)) : Decidable (∃ pts, r = .ok pts) :=
  match r with
  | .ok pts => isTrue ⟨pts, rfl⟩
  | .error _ => isFalse (fun h => h.elim (fun _ hp => nomatch hp))

/-- Whether all fetches succeeded can be read off the results. -/
instance decAllSucceed (results : List (Except GoError (List GPXPoint))) :
    Decidable (allSucceed results) :=
  inferInstanceAs (Decidable (∀ r ∈ results, ∃ pts, r = .ok pts))

/-- The values of the successful results, in order. -/
def okValues : List (Except GoError (List GPXPoint)) → List (List GPXPoint)
  | [] => []
  | .ok pts :: rest => pts :: okValues rest
  | .error _ :: rest => okValues rest

/-- The value of a run of decimal digits read from the left, continuing from
the value `n` of the digits already read. -/
def digitsValue (cs : List Char) (n : Nat) : Nat :=
  cs.foldl (fun acc c => acc * 10 + (c.toNat - 48)) n

/-- In the words of the specification: `s` is the base-10 text of the signed
64-bit integer `n`, that is an optional sign followed by at least one decimal
digit, with a value inside the 64-bit range. -/
def denotesInt64 (s : List Char) (n : Int) : Prop :=
  ∃ sign digits : List Char, s = sign ++ digits ∧
    (sign = [] ∨ sign = ['+'] ∨ sign = ['-']) ∧
    digits ≠ [] ∧ (∀ c ∈ digits, 48 ≤ c.toNat ∧ c.toNat ≤ 57) ∧
    n = (if sign = ['-'] then - (digitsValue digits 0 : Int) else (digitsValue digits 0 : Int)) ∧
    - 2 ^ 63 ≤ n ∧ n < 2 ^ 63

/-- A JSON value a `string` field accepts: a string, or `null`. -/
def fitsString : JSON → Bool
  | .null => true
  | .string _ => true
  | _ => false

/-- A JSON value an `int64` field accepts: the text of a 64-bit integer, or
`null`. -/
def fitsInt64 : JSON → Bool
  | .null => true
  | .number lit =>
    match ParseIntCore lit.data 10 with
    | .ok _ => true
    | .error _ => false
  | _ => false

/-- A JSON value a `float64` element accepts: a number inside the range of
the type, or `null`. -/
def fitsFloat64 (parseFloat : String → Option Float64) : JSON → Bool
  | .null => true
  | .number lit => (parseFloat lit).isSome
  | _ => false

/-- A JSON value a coordinate field accepts: `null`, or an array, of any
length, whose first and second element (when present) are accepted by
`float64`. -/
def fitsLatLng (parseFloat : String → Option Float64) : JSON → Bool
  | .null => true
  | .array [] => true
  | .array [a] => fitsFloat64 parseFloat a
  | .array (a :: b :: _) => fitsFloat64 parseFloat a && fitsFloat64 parseFloat b
  | _ => false

/-- A member of a JSON object the segment struct accepts: its key selects no
field, or its value is accepted by the field the key selects. -/
def memberFits (parseFloat : String → Option Float64) (m : String × JSON) : Bool :=
  match fieldFor m.1 with
  | none => true
  | some .Name => fitsString m.2
  | some .ID => fitsInt64 m.2
  | some .Start => fitsLatLng parseFloat m.2
  | some .End => fitsLatLng parseFloat m.2

/-- A JSON value the segment struct accepts: `null`, or an object all of whose
members are accepted; no member is required to be present. -/
def fitsSegment (parseFloat : String → Option Float64) : JSON → Bool
  | .null => true
  | .object members => members.all (memberFits parseFloat)
  | _ => false

/-- The document `writeSegments` builds around a waypoint sequence. -/
def documentOf (waypoints : List GPXPoint) : GPX :=
  { XMLNs := "", Version := "", Creator := "https://www.github.com/glynternet/strava-segment-waypoints",
    Name := "", Description := "", AuthorName := "", AuthorEmail := "", Keywords := "",
    Waypoints := waypoints }

/-! ## A concrete environment, to run the program on -/

/-- The body of a well-formed segment response. -/
def hillBody : JSON :=
  .object [("name", .string "Hill"), ("id", .number "7"),
    ("start_latlng", .array [.number "1.5", .number "2.5"]),
    ("end_latlng", .array [.number "3.5", .number "4.5"])]

/-- The conversion of the few number literals the sample bodies use. -/
def sampleParseFloat (lit : String) : Option Float64 :=
  if lit = "1.5" then some ⟨0x3FF8000000000000⟩
  else if lit = "2.5" then some ⟨0x4004000000000000⟩
  else if lit = "3.5" then some ⟨0x400C000000000000⟩
  else if lit = "4.5" then some ⟨0x4012000000000000⟩
  else none

/-- A remote API that knows segment 7 (answered with `hillBody`) and
segment 8 (answered with the empty JSON object), answers "404 Not Found" for
segment 12345, with a well-formed segment as the body, and lets every other
request time out; the serializer and the sink succeed. -/
def sampleEnv : Env where
  NewRequestWithContext := fun method url => .ok { Method := method, URL := url }
  Do := fun _ req =>
    if req.URL = segmentURL 7 then
      .ok { StatusCode := 200, Status := "200 OK", Body := .ok hillBody }
    else if req.URL = segmentURL 8 then
      .ok { StatusCode := 200, Status := "200 OK", Body := .ok (.object []) }
    else if req.URL = segmentURL 12345 then
      .ok { StatusCode := 404, Status := "404 Not Found", Body := .ok hillBody }
    else .error (.text "context deadline exceeded")
  ToXml := fun doc => .ok [60, 103, 112, 120, UInt8.ofNat doc.Waypoints.length, 62]
  Stdout := fun _ _ => none
  ParseFloat := sampleParseFloat
  wide := fun _ => true

/-- The sample environment with a serializer that fails. -/
def brokenXmlEnv : Env :=
  { sampleEnv with ToXml := fun _ => .error (.text "xml: unsupported type") }

/-- A sink that rejects every write. -/
def closedPipe : Writer :=
  fun _ _ => some (.text "write /dev/stdout: broken pipe")

/-- The body of a response in which the name is missing, the start pair has
one element and the end pair has three. -/
def lopsidedBody : JSON :=
  .object [("start_latlng", .array [.number "1.5"]),
    ("end_latlng", .array [.number "3.5", .number "4.5", .number "2.5"])]

/-! ## Lemmas and theorems -/

/-! ### Traces -/

theorem requestsOf_append (a b : List Event) :
    requestsOf (a ++ b) = requestsOf a ++ requestsOf b := by
  induction a with
  | nil => rfl
  | cons e a ih => cases e <;> simp [requestsOf, ih]

theorem serializedOf_append (a b : List Event) :
    serializedOf (a ++ b) = serializedOf a ++ serializedOf b := by
  induction a with
  | nil => rfl
  | cons e a ih => cases e <;> simp [serializedOf, ih]

theorem writesOf_append (a b : List Event) :
    writesOf (a ++ b) = writesOf a ++ writesOf b := by
  induction a with
  | nil => rfl
  | cons e a ih => cases e <;> simp [writesOf, ih]

theorem stderrOf_append (a b : List Event) :
    stderrOf (a ++ b) = stderrOf a ++ stderrOf b := by
  induction a with
  | nil => rfl
  | cons e a ih => cases e <;> simp [stderrOf, ih]

/-! ### One fetch -/

theorem segmentWaypoints_ok_inv (env : Env) (segmentID : Int) (token : String) (tr : List Event)
    (pts : List GPXPoint) (h : (segmentWaypoints env segmentID token tr).1 = .ok pts) :
    ∃ req res segment,
      env.NewRequestWithContext "GET" (segmentURL segmentID) = .ok req ∧
      env.Do tr (authorized req token) = .ok res ∧ res.StatusCode = 200 ∧
      Decode env.ParseFloat res.Body = .ok segment ∧
      pts = [startWaypoint segment, endWaypoint segment] ∧
      (segmentWaypoints env segmentID token tr).2 = tr ++ [.httpDo (authorized req token)] := by
  simp only [segmentURL, authorized]
  rcases hreq : env.NewRequestWithContext "GET"
    ("https://www.strava.com/api/v3/segments/" ++ fmtD segmentID) with e | req
  · simp [segmentWaypoints, hreq] at h
  · rcases hdo : env.Do tr
      { req with Header := req.Header ++ [("Authorization", "Bearer " ++ token)] } with e | res
    · simp [segmentWaypoints, hreq, hdo] at h
    · by_cases h200 : res.StatusCode = 200
      · rcases hdec : Decode env.ParseFloat res.Body with e | segment
        · simp [segmentWaypoints, hreq, hdo, h200, hdec] at h
        · simp [segmentWaypoints, hreq, hdo, h200, hdec] at h
          refine ⟨req, res, segment, rfl, hdo, h200, hdec, ?_, ?_⟩
          · simp [← h, startWaypoint, endWaypoint]
          · simp [segmentWaypoints, hreq, hdo, h200, hdec]
      · simp [segmentWaypoints, hreq, hdo, h200] at h

/-- One fetch adds nothing to the trace, or exactly one HTTP round trip. -/
theorem segmentWaypoints_trace (env : Env) (segmentID : Int) (token : String)
    (tr : List Event) :
    (segmentWaypoints env segmentID token tr).2 = tr ∨
    ∃ req, (segmentWaypoints env segmentID token tr).2 = tr ++ [.httpDo req] := by
  rcases hreq : env.NewRequestWithContext "GET"
    ("https://www.strava.com/api/v3/segments/" ++ fmtD segmentID) with e | req
  · left
    simp [segmentWaypoints, hreq]
  · right
    refine ⟨{ req with Header := req.Header ++ [("Authorization", "Bearer " ++ token)] }, ?_⟩
    rcases hdo : env.Do tr
      { req with Header := req.Header ++ [("Authorization", "Bearer " ++ token)] } with e | res
    · simp [segmentWaypoints, hreq, hdo]
    · by_cases h200 : res.StatusCode = 200
      · rcases hdec : Decode env.ParseFloat res.Body with e | segment <;>
          simp [segmentWaypoints, hreq, hdo, h200, hdec]
      · simp [segmentWaypoints, hreq, hdo, h200]

theorem segmentWaypoints_writes (env : Env) (segmentID : Int) (token : String)
    (tr : List Event) :
    writesOf (segmentWaypoints env segmentID token tr).2 = writesOf tr := by
  rcases segmentWaypoints_trace env segmentID token tr with h | ⟨req, h⟩
  · rw [h]
  · rw [h, writesOf_append]; simp [writesOf]

theorem segmentWaypoints_serialized (env : Env) (segmentID : Int) (token : String)
    (tr : List Event) :
    serializedOf (segmentWaypoints env segmentID token tr).2 = serializedOf tr := by
  rcases segmentWaypoints_trace env segmentID token tr with h | ⟨req, h⟩
  · rw [h]
  · rw [h, serializedOf_append]; simp [serializedOf]

theorem segmentWaypoints_stderr (env : Env) (segmentID : Int) (token : String)
    (tr : List Event) :
    stderrOf (segmentWaypoints env segmentID token tr).2 = stderrOf tr := by
  rcases segmentWaypoints_trace env segmentID token tr with h | ⟨req, h⟩
  · rw [h]
  · rw [h, stderrOf_append]; simp [stderrOf]

theorem segmentWaypoints_requests (env : Env) (segmentID : Int) (token : String)
    (tr : List Event) :
    ∃ new, requestsOf (segmentWaypoints env segmentID token tr).2 = requestsOf tr ++ new ∧
      new.length ≤ 1 := by
  rcases segmentWaypoints_trace env segmentID token tr with h | ⟨req, h⟩
  · exact ⟨[], by rw [h]; simp, by simp⟩
  · exact ⟨[req], by rw [h, requestsOf_append]; simp [requestsOf], by simp⟩

/-! ### The sequence of fetches -/

theorem fetchEach_length (env : Env) (token : String) (ids : List Int) (tr : List Event) :
    (fetchEach env token ids tr).1.length = ids.length := by
  induction ids generalizing tr with
  | nil => rfl
  | cons id rest ih => simp [fetchEach, ih]

theorem fetchEach_append (env : Env) (token : String) (xs ys : List Int) (tr : List Event) :
    fetchEach env token (xs ++ ys) tr =
      ((fetchEach env token xs tr).1 ++
        (fetchEach env token ys (fetchEach env token xs tr).2).1,
       (fetchEach env token ys (fetchEach env token xs tr).2).2) := by
  induction xs generalizing tr with
  | nil => simp [fetchEach]
  | cons id rest ih => simp [fetchEach, ih]

theorem fetchEach_writes (env : Env) (token : String) (ids : List Int) (tr : List Event) :
    writesOf (fetchEach env token ids tr).2 = writesOf tr := by
  induction ids generalizing tr with
  | nil => rfl
  | cons id rest ih => simp [fetchEach, ih, segmentWaypoints_writes]

theorem fetchEach_serialized (env : Env) (token : String) (ids : List Int) (tr : List Event) :
    serializedOf (fetchEach env token ids tr).2 = serializedOf tr := by
  induction ids generalizing tr with
  | nil => rfl
  | cons id rest ih => simp [fetchEach, ih, segmentWaypoints_serialized]

theorem fetchEach_stderr (env : Env) (token : String) (ids : List Int) (tr : List Event) :
    stderrOf (fetchEach env token ids tr).2 = stderrOf tr := by
  induction ids generalizing tr with
  | nil => rfl
  | cons id rest ih => simp [fetchEach, ih, segmentWaypoints_stderr]

theorem fetchEach_requests (env : Env) (token : String) (ids : List Int) (tr : List Event) :
    ∃ new, requestsOf (fetchEach env token ids tr).2 = requestsOf tr ++ new ∧
      new.length ≤ ids.length := by
  induction ids generalizing tr with
  | nil => exact ⟨[], by simp [fetchEach], by simp⟩
  | cons id rest ih =>
    obtain ⟨n1, h1, l1⟩ := segmentWaypoints_requests env id token tr
    obtain ⟨n2, h2, l2⟩ := ih (segmentWaypoints env id token tr).2
    refine ⟨n1 ++ n2, ?_, ?_⟩
    · simp [fetchEach, h2, h1]
    · simp; omega

/-- When every fetch succeeds the loop of `writeSegments` ends with the values
of the fetches appended, in order, to what it started from. -/
theorem collectWaypoints_all_ok (env : Env) (token : String) (ids : List Int)
    (acc : List GPXPoint) (tr : List Event)
    (hall : allSucceed (fetchEach env token ids tr).1) :
    collectWaypoints env token ids acc tr =
      (.ok (acc ++ (okValues (fetchEach env token ids tr).1).flatten),
       (fetchEach env token ids tr).2) := by
  induction ids generalizing acc tr with
  | nil => simp [collectWaypoints, fetchEach, okValues]
  | cons id rest ih =>
    have h1 : ∃ pts, (segmentWaypoints env id token tr).1 = .ok pts :=
      hall _ (by simp [fetchEach])
    obtain ⟨pts, hp⟩ := h1
    have hrest : allSucceed (fetchEach env token rest (segmentWaypoints env id token tr).2).1 := by
      intro r hr
      exact hall r (by simp [fetchEach, hr])
    have hsw : segmentWaypoints env id token tr = (.ok pts, (segmentWaypoints env id token tr).2) := by
      rw [← hp]
    rw [collectWaypoints, hsw]
    simp only
    rw [ih _ _ hrest]
    simp [fetchEach, hp, okValues]

/-- When the fetches of `pre` succeed and the next one fails, the loop stops
there: it returns the wrapped error and the trace the failing fetch leaves. -/
theorem collectWaypoints_first_failure (env : Env) (token : String) (pre post : List Int)
    (id : Int) (acc : List GPXPoint) (tr : List Event) (e : GoError)
    (hpre : allSucceed (fetchEach env token pre tr).1)
    (hfail : (segmentWaypoints env id token (fetchEach env token pre tr).2).1 = .error e) :
    collectWaypoints env token (pre ++ id :: post) acc tr =
      (.error (.wrapped ("getting segment waypoints for segment:" ++ fmtQ env.wide id ++ ": ") e),
       (segmentWaypoints env id token (fetchEach env token pre tr).2).2) := by
  induction pre generalizing acc tr with
  | nil =>
    simp only [fetchEach] at hfail
    have hsw : segmentWaypoints env id token tr =
        (.error e, (segmentWaypoints env id token tr).2) := by rw [← hfail]
    simp only [List.nil_append, fetchEach]
    rw [collectWaypoints, hsw]
  | cons x rest ih =>
    have h1 : ∃ pts, (segmentWaypoints env x token tr).1 = .ok pts :=
      hpre _ (by simp [fetchEach])
    obtain ⟨pts, hp⟩ := h1
    have hrest : allSucceed (fetchEach env token rest (segmentWaypoints env x token tr).2).1 := by
      intro r hr
      exact hpre r (by simp [fetchEach, hr])
    have hsw : segmentWaypoints env x token tr = (.ok pts, (segmentWaypoints env x token tr).2) := by
      rw [← hp]
    simp only [fetchEach] at hfail
    simp only [List.cons_append, fetchEach]
    rw [collectWaypoints, hsw]
    simp only
    exact ih _ _ hrest hfail

/-- Either every fetch succeeds, or there is a first one that fails. -/
theorem fetchEach_dichotomy (env : Env) (token : String) (ids : List Int) (tr : List Event) :
    allSucceed (fetchEach env token ids tr).1 ∨
    ∃ pre id post e, ids = pre ++ id :: post ∧
      allSucceed (fetchEach env token pre tr).1 ∧
      (segmentWaypoints env id token (fetchEach env token pre tr).2).1 = .error e := by
  induction ids generalizing tr with
  | nil => left; intro r hr; simp [fetchEach] at hr
  | cons x rest ih =>
    rcases hx : (segmentWaypoints env x token tr).1 with e | pts
    · right
      exact ⟨[], x, rest, e, rfl, by intro r hr; simp [fetchEach] at hr, by simpa [fetchEach] using hx⟩
    · rcases ih (segmentWaypoints env x token tr).2 with hall | ⟨pre, id, post, e, hids, hpre, hfail⟩
      · left
        intro r hr
        simp only [fetchEach, List.mem_cons] at hr
        rcases hr with rfl | hr
        · exact ⟨pts, hx⟩
        · exact hall r hr
      · right
        refine ⟨x :: pre, id, post, e, by simp [hids], ?_, by simpa [fetchEach] using hfail⟩
        intro r hr
        simp only [fetchEach, List.mem_cons] at hr
        rcases hr with rfl | hr
        · exact ⟨pts, hx⟩
        · exact hpre r hr
/-! ### Text -/

theorem occursIn_prefix (needle post : List Char) : occursIn needle (needle ++ post) = true := by
  cases h : needle ++ post with
  | nil =>
    have : needle = [] := by
      cases needle with
      | nil => rfl
      | cons c cs => simp at h
    simp [occursIn, this]
  | cons c cs =>
    rw [occursIn, ← h]
    simp [List.isPrefixOf_iff_prefix]

theorem occursIn_append (needle pre post : List Char) :
    occursIn needle (pre ++ (needle ++ post)) = true := by
  induction pre with
  | nil => simpa using occursIn_prefix needle post
  | cons c cs ih =>
    rw [List.cons_append, occursIn, ih]
    simp

theorem containsText_append (pre s post : String) :
    containsText (pre ++ s ++ post) s = true := by
  unfold containsText
  simp only [String.data_append, List.append_assoc]
  exact occursIn_append _ _ _

/-! ### The waypoints of the fetched segments -/

theorem allSucceed_segments (env : Env) (token : String) (ids : List Int) (tr : List Event)
    (hall : allSucceed (fetchEach env token ids tr).1) :
    ∃ segs : List Segment, segs.length = ids.length ∧
      (fetchEach env token ids tr).1 =
        segs.map (fun s => Except.ok [startWaypoint s, endWaypoint s]) := by
  induction ids generalizing tr with
  | nil => exact ⟨[], rfl, rfl⟩
  | cons id rest ih =>
    obtain ⟨pts, hp⟩ : ∃ pts, (segmentWaypoints env id token tr).1 = .ok pts :=
      hall _ (by simp [fetchEach])
    have hrest : allSucceed (fetchEach env token rest (segmentWaypoints env id token tr).2).1 := by
      intro r hr
      exact hall r (by simp [fetchEach, hr])
    obtain ⟨segs, hlen, hsegs⟩ := ih _ hrest
    obtain ⟨_, _, segment, _, _, _, _, hpts, _⟩ := segmentWaypoints_ok_inv env id token tr pts hp
    refine ⟨segment :: segs, by simp [hlen], ?_⟩
    simp [fetchEach, hp, hpts, hsegs]

theorem okValues_map_ok (f : Segment → List GPXPoint) (segs : List Segment) :
    okValues (segs.map (fun s => Except.ok (f s))) = segs.map f := by
  induction segs with
  | nil => rfl
  | cons s rest ih => simp [okValues, ih]

theorem pairs_getElem (f g : Segment → GPXPoint) (segs : List Segment) (i : Nat)
    (h : i < segs.length) :
    (segs.map (fun s => [f s, g s])).flatten[2 * i]? = some (f (segs.get ⟨i, h⟩)) ∧
    (segs.map (fun s => [f s, g s])).flatten[2 * i + 1]? = some (g (segs.get ⟨i, h⟩)) := by
  induction segs generalizing i with
  | nil => simp at h
  | cons s rest ih =>
    cases i with
    | zero => simp
    | succ j =>
      have hj : j < rest.length := by simpa using h
      have := ih j hj
      have e1 : 2 * (j + 1) = (2 * j) + 1 + 1 := by ring
      have e2 : 2 * (j + 1) + 1 = (2 * j + 1) + 1 + 1 := by ring
      rw [e1]
      simpa using this

theorem pairs_length (f g : Segment → GPXPoint) (segs : List Segment) :
    (segs.map (fun s => [f s, g s])).flatten.length = 2 * segs.length := by
  induction segs with
  | nil => rfl
  | cons s rest ih => simp [ih]; ring

/-- What `writeSegments` does when every fetch succeeds. -/
theorem writeSegments_all_ok (env : Env) (w : Writer) (token : String) (ids : List Int)
    (tr : List Event) (hall : allSucceed (fetchEach env token ids tr).1) :
    writeSegments env w token ids tr =
      (match env.ToXml (documentOf (okValues (fetchEach env token ids tr).1).flatten) with
       | .error err =>
         (some (.wrapped "creating GPX XML output: " err),
          (fetchEach env token ids tr).2 ++
            [.toXml (documentOf (okValues (fetchEach env token ids tr).1).flatten)])
       | .ok xml =>
         (match w ((fetchEach env token ids tr).2 ++
              [.toXml (documentOf (okValues (fetchEach env token ids tr).1).flatten)]) xml with
          | some err => some (.wrapped "writing GPX XML output: " err)
          | none => none,
          (fetchEach env token ids tr).2 ++
            [.toXml (documentOf (okValues (fetchEach env token ids tr).1).flatten),
             .write xml])) := by
  unfold writeSegments
  rw [collectWaypoints_all_ok env token ids [] tr hall]
  simp only [List.nil_append, documentOf]
  rcases hx : env.ToXml
    { XMLNs := "", Version := "", Creator := "https://www.github.com/glynternet/strava-segment-waypoints",
      Name := "", Description := "", AuthorName := "", AuthorEmail := "", Keywords := "",
      Waypoints := (okValues (fetchEach env token ids tr).1).flatten } with err | xml
  · rfl
  · simp only
    split <;> simp_all

/-- What `writeSegments` does when a fetch fails after the fetches of `pre`. -/
theorem writeSegments_first_failure (env : Env) (w : Writer) (token : String)
    (pre post : List Int) (id : Int) (tr : List Event) (e : GoError)
    (hpre : allSucceed (fetchEach env token pre tr).1)
    (hfail : (segmentWaypoints env id token (fetchEach env token pre tr).2).1 = .error e) :
    writeSegments env w token (pre ++ id :: post) tr =
      (some (.wrapped ("getting segment waypoints for segment:" ++ fmtQ env.wide id ++ ": ") e),
       (segmentWaypoints env id token (fetchEach env token pre tr).2).2) := by
  unfold writeSegments
  rw [collectWaypoints_first_failure env token pre post id [] tr e hpre hfail]

/-! ### The claims about fetching and assembling -/

/-- C1: when the response for a segment has status 200 and its body decodes to
the segment with name `n`, start pair `[slat, slon]` and end pair
`[elat, elon]`, `segmentWaypoints` returns exactly two waypoints: the first at
`slat`, `slon` named `n ++ " (start)"` with symbol "Flag, Green" and type
"user", the second at `elat`, `elon` named `n ++ " (end)"` with symbol
"Flag, Red" and type "user"; in both the elevation is the unset value and the
source (like the comment and the description) is empty. -/
theorem segmentWaypoints_start_and_end (env : Env) (segmentID : Int) (token : String)
    (tr : List Event) (req : Request) (res : Response) (n : String) (i : Int)
    (slat slon elat elon : Float64)
    (hreq : env.NewRequestWithContext "GET" (segmentURL segmentID) = .ok req)
    (hdo : env.Do tr (authorized req token) = .ok res)
    (h200 : res.StatusCode = 200)
    (hdec : Decode env.ParseFloat res.Body =
      .ok { Name := n, ID := i, Start := { at0 := slat, at1 := slon },
            End := { at0 := elat, at1 := elon } }) :
    (segmentWaypoints env segmentID token tr).1 = .ok [
      { Point := { Latitude := slat, Longitude := slon,
                   Elevation := { data := Float64.zero, notNull := false } },
        Name := n ++ " (start)", Comment := "", Description := "", Source := "",
        Symbol := "Flag, Green", Typ := "user" },
      { Point := { Latitude := elat, Longitude := elon,
                   Elevation := { data := Float64.zero, notNull := false } },
        Name := n ++ " (end)", Comment := "", Description := "", Source := "",
        Symbol := "Flag, Red", Typ := "user" }] := by
  simp only [segmentURL, authorized] at hreq hdo
  simp [segmentWaypoints, hreq, hdo, h200, hdec]

/-- The theorem of C1 at the sample environment: segment 7, named "Hill". -/
theorem segmentWaypoints_start_and_end_witness :
    (segmentWaypoints sampleEnv 7 "tok" []).1 = .ok [
      { Point := { Latitude := ⟨0x3FF8000000000000⟩, Longitude := ⟨0x4004000000000000⟩,
                   Elevation := { data := Float64.zero, notNull := false } },
        Name := "Hill" ++ " (start)", Comment := "", Description := "", Source := "",
        Symbol := "Flag, Green", Typ := "user" },
      { Point := { Latitude := ⟨0x400C000000000000⟩, Longitude := ⟨0x4012000000000000⟩,
                   Elevation := { data := Float64.zero, notNull := false } },
        Name := "Hill" ++ " (end)", Comment := "", Description := "", Source := "",
        Symbol := "Flag, Red", Typ := "user" }] :=
  segmentWaypoints_start_and_end sampleEnv 7 "tok" []
    { Method := "GET", URL := segmentURL 7 }
    { StatusCode := 200, Status := "200 OK", Body := .ok hillBody } "Hill" 7
    ⟨0x3FF8000000000000⟩ ⟨0x4004000000000000⟩ ⟨0x400C000000000000⟩ ⟨0x4012000000000000⟩
    rfl (by simp [sampleEnv, authorized]) rfl (by decide)

/-- C2: when the fetches of the `N` supplied IDs all succeed, `writeSegments`
hands the serializer one document, and its waypoint sequence is the
concatenation, in input order, of the `[start, end]` pair of each fetch: for
the segments `segs` decoded by the successive fetches (one per supplied ID,
duplicates included) the sequence has `2 * N` elements, element `2 * i` is the
start waypoint and element `2 * i + 1` the end waypoint of the `i`-th one. -/
theorem writeSegments_waypoints_in_order (env : Env) (w : Writer) (token : String)
    (ids : List Int) (tr : List Event)
    (hall : allSucceed (fetchEach env token ids tr).1) :
    ∃ (segs : List Segment) (waypoints : List GPXPoint),
      segs.length = ids.length ∧
      (fetchEach env token ids tr).1 =
        segs.map (fun s => Except.ok [startWaypoint s, endWaypoint s]) ∧
      serializedOf (writeSegments env w token ids tr).2 =
        serializedOf tr ++ [documentOf waypoints] ∧
      waypoints = (segs.map (fun s => [startWaypoint s, endWaypoint s])).flatten ∧
      waypoints.length = 2 * ids.length ∧
      ∀ (i : Nat) (h : i < segs.length),
        waypoints[2 * i]? = some (startWaypoint (segs.get ⟨i, h⟩)) ∧
        waypoints[2 * i + 1]? = some (endWaypoint (segs.get ⟨i, h⟩)) := by
  obtain ⟨segs, hlen, hsegs⟩ := allSucceed_segments env token ids tr hall
  refine ⟨segs, _, hlen, hsegs, ?_, rfl, ?_, ?_⟩
  · rw [writeSegments_all_ok env w token ids tr hall, hsegs, okValues_map_ok]
    split
    · simp [serializedOf_append, fetchEach_serialized, serializedOf]
    · simp [serializedOf_append, fetchEach_serialized, serializedOf]
  · rw [pairs_length, hlen]
  · intro i h
    exact pairs_getElem startWaypoint endWaypoint segs i h

/-- The theorem of C2 at the sample environment: segment 7 asked for twice. -/
theorem writeSegments_waypoints_in_order_witness :
    ∃ (segs : List Segment) (waypoints : List GPXPoint),
      segs.length = [(7 : Int), 7].length ∧
      (fetchEach sampleEnv "tok" [7, 7] []).1 =
        segs.map (fun s => Except.ok [startWaypoint s, endWaypoint s]) ∧
      serializedOf (writeSegments sampleEnv sampleEnv.Stdout "tok" [7, 7] []).2 =
        serializedOf [] ++ [documentOf waypoints] ∧
      waypoints = (segs.map (fun s => [startWaypoint s, endWaypoint s])).flatten ∧
      waypoints.length = 2 * [(7 : Int), 7].length ∧
      ∀ (i : Nat) (h : i < segs.length),
        waypoints[2 * i]? = some (startWaypoint (segs.get ⟨i, h⟩)) ∧
        waypoints[2 * i + 1]? = some (endWaypoint (segs.get ⟨i, h⟩)) :=
  writeSegments_waypoints_in_order sampleEnv sampleEnv.Stdout "tok" [7, 7] [] (by decide)

/-- C3: when the fetches of the IDs before some ID succeed and the fetch of
that ID fails with error `e`, `writeSegments` returns an error that wraps `e`,
writes nothing to the sink, never calls the serializer, and stops at the
failing fetch: its trace is the trace that fetch leaves, whatever IDs follow,
so that at most one request per ID up to the failing one has been made. -/
theorem writeSegments_stops_at_first_failure (env : Env) (w : Writer) (token : String)
    (pre post : List Int) (id : Int) (tr : List Event) (e : GoError)
    (hpre : allSucceed (fetchEach env token pre tr).1)
    (hfail : (segmentWaypoints env id token (fetchEach env token pre tr).2).1 = .error e) :
    (∃ err, (writeSegments env w token (pre ++ id :: post) tr).1 = some err ∧
      err.Unwrap = some e) ∧
    writesOf (writeSegments env w token (pre ++ id :: post) tr).2 = writesOf tr ∧
    serializedOf (writeSegments env w token (pre ++ id :: post) tr).2 = serializedOf tr ∧
    (writeSegments env w token (pre ++ id :: post) tr).2 =
      (segmentWaypoints env id token (fetchEach env token pre tr).2).2 ∧
    ∃ new, requestsOf (writeSegments env w token (pre ++ id :: post) tr).2 =
        requestsOf tr ++ new ∧ new.length ≤ pre.length + 1 := by
  rw [writeSegments_first_failure env w token pre post id tr e hpre hfail]
  refine ⟨⟨_, rfl, rfl⟩, ?_, ?_, rfl, ?_⟩
  · simp [segmentWaypoints_writes, fetchEach_writes]
  · simp [segmentWaypoints_serialized, fetchEach_serialized]
  · obtain ⟨n1, h1, l1⟩ := fetchEach_requests env token pre tr
    obtain ⟨n2, h2, l2⟩ := segmentWaypoints_requests env id token (fetchEach env token pre tr).2
    refine ⟨n1 ++ n2, ?_, ?_⟩
    · simp [h2, h1]
    · simp; omega

/-- The theorem of C3 at the sample environment: segment 7 is fetched, segment
12345 is answered "404 Not Found", segment 7 is not fetched a second time. -/
theorem writeSegments_stops_at_first_failure_witness :
    (∃ err, (writeSegments sampleEnv sampleEnv.Stdout "tok" ([7] ++ 12345 :: [7]) []).1 =
        some err ∧
      err.Unwrap = some (.text ("request for segment ID:" ++ fmtQ sampleEnv.wide 12345 ++
        " returned non-200 status code: " ++ "404 Not Found"))) ∧
    writesOf (writeSegments sampleEnv sampleEnv.Stdout "tok" ([7] ++ 12345 :: [7]) []).2 =
      writesOf [] ∧
    serializedOf (writeSegments sampleEnv sampleEnv.Stdout "tok" ([7] ++ 12345 :: [7]) []).2 =
      serializedOf [] ∧
    (writeSegments sampleEnv sampleEnv.Stdout "tok" ([7] ++ 12345 :: [7]) []).2 =
      (segmentWaypoints sampleEnv 12345 "tok" (fetchEach sampleEnv "tok" [7] []).2).2 ∧
    ∃ new, requestsOf (writeSegments sampleEnv sampleEnv.Stdout "tok"
        ([7] ++ 12345 :: [7]) []).2 = requestsOf [] ++ new ∧ new.length ≤ [(7 : Int)].length + 1 :=
  writeSegments_stops_at_first_failure sampleEnv sampleEnv.Stdout "tok" [7] [7] 12345 []
    (.text ("request for segment ID:" ++ fmtQ sampleEnv.wide 12345 ++
      " returned non-200 status code: " ++ "404 Not Found"))
    (by decide) rfl

/-- C5: when the response has a status code other than 200, `segmentWaypoints`
returns an error and no waypoints; the message of the error ends with the
status text of the response; and the outcome does not depend on the body: any
environment that builds the same request and answers it with the same status
code and status text, whatever the body, gives the same result. -/
theorem segmentWaypoints_non_200 (env : Env) (segmentID : Int) (token : String)
    (tr : List Event) (req : Request) (res : Response)
    (hreq : env.NewRequestWithContext "GET" (segmentURL segmentID) = .ok req)
    (hdo : env.Do tr (authorized req token) = .ok res)
    (hstatus : res.StatusCode ≠ 200) :
    segmentWaypoints env segmentID token tr =
      (.error (.text ("request for segment ID:" ++ fmtQ env.wide segmentID ++
        " returned non-200 status code: " ++ res.Status)), tr ++ [.httpDo (authorized req token)]) ∧
    (∀ pts, (segmentWaypoints env segmentID token tr).1 ≠ .ok pts) ∧
    (∃ err, (segmentWaypoints env segmentID token tr).1 = .error err ∧
      containsText err.Error res.Status = true) ∧
    (∀ (env2 : Env) (res2 : Response),
      env2.NewRequestWithContext "GET" (segmentURL segmentID) = .ok req →
      env2.wide = env.wide →
      env2.Do tr (authorized req token) = .ok res2 →
      res2.StatusCode = res.StatusCode → res2.Status = res.Status →
      segmentWaypoints env2 segmentID token tr = segmentWaypoints env segmentID token tr) := by
  have key : ∀ (env2 : Env) (res2 : Response),
      env2.NewRequestWithContext "GET" (segmentURL segmentID) = .ok req →
      env2.Do tr (authorized req token) = .ok res2 → res2.StatusCode ≠ 200 →
      segmentWaypoints env2 segmentID token tr =
        (.error (.text ("request for segment ID:" ++ fmtQ env2.wide segmentID ++
          " returned non-200 status code: " ++ res2.Status)),
         tr ++ [.httpDo (authorized req token)]) := by
    intro env2 res2 h1 h2 h3
    simp only [segmentURL, authorized] at h1 h2
    simp [segmentWaypoints, h1, h2, h3, authorized]
  refine ⟨key env res hreq hdo hstatus, ?_, ?_, ?_⟩
  · intro pts h
    rw [key env res hreq hdo hstatus] at h
    simp at h
  · refine ⟨_, by rw [key env res hreq hdo hstatus], ?_⟩
    have := containsText_append ("request for segment ID:" ++ fmtQ env.wide segmentID ++
      " returned non-200 status code: ") res.Status ""
    simpa [GoError.Error] using this
  · intro env2 res2 h1 hw h2 hc hs
    rw [key env res hreq hdo hstatus, key env2 res2 h1 h2 (by rw [hc]; exact hstatus), hw, hs]

/-- The theorem of C5 at the sample environment: segment 12345 is answered
"404 Not Found" with a well-formed segment as the body. -/
theorem segmentWaypoints_non_200_witness :
    segmentWaypoints sampleEnv 12345 "tok" [] =
      (.error (.text ("request for segment ID:" ++ fmtQ sampleEnv.wide 12345 ++
        " returned non-200 status code: " ++ "404 Not Found")),
       [] ++ [.httpDo (authorized { Method := "GET", URL := segmentURL 12345 } "tok")]) :=
  (segmentWaypoints_non_200 sampleEnv 12345 "tok" []
    { Method := "GET", URL := segmentURL 12345 }
    { StatusCode := 404, Status := "404 Not Found", Body := .ok hillBody }
    rfl rfl (by decide)).1

/-- C9: when every fetch succeeds, the document `writeSegments` passes to the
serializer has the fixed creator string, an empty name, the collected
waypoints (the values of the fetches, concatenated in order) and no other
field set; and when the serializer fails with `e`, `writeSegments` returns
`e` wrapped and writes nothing to the sink. -/
theorem writeSegments_document (env : Env) (w : Writer) (token : String) (ids : List Int)
    (tr : List Event) (hall : allSucceed (fetchEach env token ids tr).1) :
    serializedOf (writeSegments env w token ids tr).2 = serializedOf tr ++
      [{ XMLNs := "", Version := "",
         Creator := "https://www.github.com/glynternet/strava-segment-waypoints",
         Name := "", Description := "", AuthorName := "", AuthorEmail := "", Keywords := "",
         Waypoints := (okValues (fetchEach env token ids tr).1).flatten }] ∧
    ∀ e, env.ToXml
        { XMLNs := "", Version := "",
          Creator := "https://www.github.com/glynternet/strava-segment-waypoints",
          Name := "", Description := "", AuthorName := "", AuthorEmail := "", Keywords := "",
          Waypoints := (okValues (fetchEach env token ids tr).1).flatten } = .error e →
      (writeSegments env w token ids tr).1 = some (.wrapped "creating GPX XML output: " e) ∧
      (GoError.wrapped "creating GPX XML output: " e).Unwrap = some e ∧
      writesOf (writeSegments env w token ids tr).2 = writesOf tr := by
  rw [writeSegments_all_ok env w token ids tr hall]
  simp only [documentOf]
  constructor
  · split <;> simp [serializedOf_append, fetchEach_serialized, serializedOf]
  · intro e he
    rw [he]
    simp [GoError.Unwrap, writesOf_append, fetchEach_writes, writesOf]

/-- The theorem of C9 at the sample environment with the failing serializer. -/
theorem writeSegments_document_witness :
    (writeSegments brokenXmlEnv closedPipe "tok" [7, 8] []).1 =
        some (.wrapped "creating GPX XML output: " (.text "xml: unsupported type")) ∧
    writesOf (writeSegments brokenXmlEnv closedPipe "tok" [7, 8] []).2 = writesOf [] :=
  have h := (writeSegments_document brokenXmlEnv closedPipe "tok" [7, 8] [] (by decide)).2
    (.text "xml: unsupported type") rfl
  ⟨h.1, h.2.2⟩

/-- C10: on every run of `writeSegments` the sink receives at most one write.
When every fetch and the serialization succeed it receives exactly one,
carrying the bytes the serializer returned, `writeSegments` returns `nil`
exactly when that write succeeds, and when the sink rejects it with `e` the
result is `e` wrapped, still with that single write.  When a fetch or the
serialization fails the sink receives nothing and the result is an error. -/
theorem writeSegments_single_write (env : Env) (w : Writer) (token : String) (ids : List Int)
    (tr : List Event) :
    (∃ new, writesOf (writeSegments env w token ids tr).2 = writesOf tr ++ new ∧
      new.length ≤ 1) ∧
    (∀ xml, allSucceed (fetchEach env token ids tr).1 →
      env.ToXml (documentOf (okValues (fetchEach env token ids tr).1).flatten) = .ok xml →
      writesOf (writeSegments env w token ids tr).2 = writesOf tr ++ [xml] ∧
      ((writeSegments env w token ids tr).1 = none ↔
        w ((fetchEach env token ids tr).2 ++
          [.toXml (documentOf (okValues (fetchEach env token ids tr).1).flatten)]) xml = none) ∧
      ∀ e, w ((fetchEach env token ids tr).2 ++
          [.toXml (documentOf (okValues (fetchEach env token ids tr).1).flatten)]) xml = some e →
        (writeSegments env w token ids tr).1 = some (.wrapped "writing GPX XML output: " e) ∧
        (GoError.wrapped "writing GPX XML output: " e).Unwrap = some e) ∧
    ((¬ allSucceed (fetchEach env token ids tr).1 ∨
        ∃ e, env.ToXml (documentOf (okValues (fetchEach env token ids tr).1).flatten) = .error e) →
      writesOf (writeSegments env w token ids tr).2 = writesOf tr ∧
      (writeSegments env w token ids tr).1 ≠ none) := by
  have hok : ∀ xml, allSucceed (fetchEach env token ids tr).1 →
      env.ToXml (documentOf (okValues (fetchEach env token ids tr).1).flatten) = .ok xml →
      writesOf (writeSegments env w token ids tr).2 = writesOf tr ++ [xml] ∧
      ((writeSegments env w token ids tr).1 = none ↔
        w ((fetchEach env token ids tr).2 ++
          [.toXml (documentOf (okValues (fetchEach env token ids tr).1).flatten)]) xml = none) ∧
      ∀ e, w ((fetchEach env token ids tr).2 ++
          [.toXml (documentOf (okValues (fetchEach env token ids tr).1).flatten)]) xml = some e →
        (writeSegments env w token ids tr).1 = some (.wrapped "writing GPX XML output: " e) ∧
        (GoError.wrapped "writing GPX XML output: " e).Unwrap = some e := by
    intro xml hall hx
    rw [writeSegments_all_ok env w token ids tr hall, hx]
    refine ⟨?_, ?_, ?_⟩
    · simp [writesOf_append, fetchEach_writes, writesOf]
    · simp only
      split <;> simp_all
    · intro e he
      simp [he, GoError.Unwrap]
  have hxmlfail : ∀ e, allSucceed (fetchEach env token ids tr).1 →
      env.ToXml (documentOf (okValues (fetchEach env token ids tr).1).flatten) = .error e →
      writesOf (writeSegments env w token ids tr).2 = writesOf tr ∧
      (writeSegments env w token ids tr).1 ≠ none := by
    intro e hall hx
    rw [writeSegments_all_ok env w token ids tr hall, hx]
    simp [writesOf_append, fetchEach_writes, writesOf]
  have hfetchfail : ¬ allSucceed (fetchEach env token ids tr).1 →
      writesOf (writeSegments env w token ids tr).2 = writesOf tr ∧
      (writeSegments env w token ids tr).1 ≠ none := by
    intro hnot
    rcases fetchEach_dichotomy env token ids tr with hall | ⟨pre, id, post, e, hids, hpre, hfail⟩
    · exact absurd hall hnot
    · subst hids
      rw [writeSegments_first_failure env w token pre post id tr e hpre hfail]
      simp [segmentWaypoints_writes, fetchEach_writes]
  refine ⟨?_, hok, ?_⟩
  · by_cases hall : allSucceed (fetchEach env token ids tr).1
    · rcases hx : env.ToXml (documentOf (okValues (fetchEach env token ids tr).1).flatten)
        with e | xml
      · exact ⟨[], by simpa using (hxmlfail e hall hx).1, by simp⟩
      · exact ⟨[xml], (hok xml hall hx).1, by simp⟩
    · exact ⟨[], by simpa using (hfetchfail hall).1, by simp⟩
  · rintro (hnot | ⟨e, hx⟩)
    · exact hfetchfail hnot
    · by_cases hall : allSucceed (fetchEach env token ids tr).1
      · exact hxmlfail e hall hx
      · exact hfetchfail hall

/-- The theorem of C10 at the sample environment with a sink that rejects the
write: one write, carrying the serializer's bytes, and the wrapped error. -/
theorem writeSegments_single_write_witness :
    writesOf (writeSegments sampleEnv closedPipe "tok" [7] []).2 =
        writesOf [] ++ [[60, 103, 112, 120, 2, 62]] ∧
    (writeSegments sampleEnv closedPipe "tok" [7] []).1 =
      some (.wrapped "writing GPX XML output: " (.text "write /dev/stdout: broken pipe")) :=
  have h := (writeSegments_single_write sampleEnv closedPipe "tok" [7] []).2.1
    [60, 103, 112, 120, 2, 62] (by decide) (by decide)
  ⟨h.1, (h.2.2 (.text "write /dev/stdout: broken pipe") rfl).1⟩

/-! ### Error messages and the exit status -/

set_option maxRecDepth 100000

/-- C4: segment 12345 answered "404 Not Found", whichever way the table of
printable runes answers (`b`).  The messages of the errors `segmentWaypoints`
and `writeSegments` return contain the status text but not the decimal text
"12345": the verb `%q` prints the identifier as the quoted character U+3039,
or as its escape when the table calls it unprintable. -/
theorem non_200_message_lacks_decimal_id (b : Bool) :
    (segmentWaypoints { sampleEnv with wide := fun _ => b } 12345 "tok" []).1 =
      .error (.text ("request for segment ID:" ++
        (if b then "\x27〹\x27" else "\x27\\u3039\x27") ++
        " returned non-200 status code: 404 Not Found")) ∧
    ((writeSegments { sampleEnv with wide := fun _ => b } sampleEnv.Stdout "tok"
        [12345] []).1.map GoError.Error) =
      some ("getting segment waypoints for segment:" ++
        (if b then "\x27〹\x27" else "\x27\\u3039\x27") ++
        ": request for segment ID:" ++
        (if b then "\x27〹\x27" else "\x27\\u3039\x27") ++
        " returned non-200 status code: 404 Not Found") ∧
    containsText ("getting segment waypoints for segment:" ++
        (if b then "\x27〹\x27" else "\x27\\u3039\x27") ++
        ": request for segment ID:" ++
        (if b then "\x27〹\x27" else "\x27\\u3039\x27") ++
        " returned non-200 status code: 404 Not Found") "404 Not Found" = true ∧
    containsText ("getting segment waypoints for segment:" ++
        (if b then "\x27〹\x27" else "\x27\\u3039\x27") ++
        ": request for segment ID:" ++
        (if b then "\x27〹\x27" else "\x27\\u3039\x27") ++
        " returned non-200 status code: 404 Not Found") (fmtD 12345) = false ∧
    containsText ("request for segment ID:" ++
        (if b then "\x27〹\x27" else "\x27\\u3039\x27") ++
        " returned non-200 status code: 404 Not Found") (fmtD 12345) = false := by
  cases b
  · exact ⟨rfl, rfl, rfl, rfl, rfl⟩
  · exact ⟨rfl, rfl, rfl, rfl, rfl⟩

/-- The exit status of `main` is 22 when `setup` fails and 0 in every other
case, whether `writeSegments` fails or not. -/
theorem main_exit_status (env : Env) (token : String) (args : List String) (tr : List Event) :
    (main env token args tr).1 =
      (match setup env.wide token args with
       | .error _ => 22
       | .ok _ => 0) := by
  unfold main
  rcases setup env.wide token args with err | ⟨token1, segmentIDs⟩
  · rfl
  · simp only
    split <;> rfl

/-- C8: a run in which `setup` succeeds and `writeSegments` fails (segment
12345 is answered "404 Not Found"): the error is printed to the error stream,
without the usage text, and the exit status is 0, the status of a fully
successful run (segment 7 alone); the usage error exits with 22. -/
theorem pipeline_error_exits_zero :
    (∃ err, (writeSegments sampleEnv sampleEnv.Stdout "tok" [12345] []).1 = some err) ∧
    (main sampleEnv "tok" ["12345"] []).1 = 0 ∧
    stderrOf (main sampleEnv "tok" ["12345"] []).2 =
      ["Error: getting segment waypoints for segment:\x27〹\x27: " ++
        "request for segment ID:\x27〹\x27 returned non-200 status code: 404 Not Found\n"] ∧
    writesOf (main sampleEnv "tok" ["12345"] []).2 = [] ∧
    (main sampleEnv "tok" ["7"] []).1 = 0 ∧
    stderrOf (main sampleEnv "tok" ["7"] []).2 = [] ∧
    (main sampleEnv "" ["7"] []).1 = 22 := by
  refine ⟨⟨_, rfl⟩, ?_, ?_, ?_, ?_, ?_, ?_⟩
  · decide
  · rfl
  · rfl
  · decide
  · rfl
  · decide

/-! ### Parsing the segment identifiers -/

theorem digitsValue_ge (cs : List Char) (n : Nat) : n ≤ digitsValue cs n := by
  induction cs generalizing n with
  | nil => simp [digitsValue]
  | cons c cs ih =>
    have h := ih (n * 10 + (c.toNat - 48))
    simp only [digitsValue, List.foldl_cons] at h ⊢
    omega

theorem digitVal_decimal (c : Char) (d : Nat) (h : digitVal c = some d) (hd : d < 10) :
    48 ≤ c.toNat ∧ c.toNat ≤ 57 ∧ d = c.toNat - 48 := by
  unfold digitVal at h
  simp only at h
  split at h
  · rename_i hc
    simp at h
    omega
  · split at h
    · simp at h
      omega
    · simp at h

theorem digitVal_not_decimal (c : Char) (h : ∀ d, digitVal c = some d → 10 ≤ d) :
    ¬ (48 ≤ c.toNat ∧ c.toNat ≤ 57) := by
  intro hc
  have := h (c.toNat - 48) (by simp [digitVal, hc])
  omega

theorem ParseUintLoop_syntax (c : Char) (cs : List Char) (n : Nat)
    (h : ∀ d, digitVal c = some d → 10 ≤ d) :
    ParseUintLoop 10 (c :: cs) n = (0, some .ErrSyntax) := by
  rw [ParseUintLoop]
  rcases hdv : digitVal c with _ | d
  · rfl
  · have := h d hdv
    simp only
    rw [if_pos this]

theorem ParseUintLoop_digit (c : Char) (cs : List Char) (n d : Nat)
    (hdv : digitVal c = some d) (hd : d < 10) :
    ParseUintLoop 10 (c :: cs) n =
      if 2 ^ 64 ≤ n * 10 + d then (2 ^ 64 - 1, some .ErrRange)
      else ParseUintLoop 10 cs (n * 10 + d) := by
  rw [ParseUintLoop, hdv]
  simp only
  split_ifs with h1 h2 h3 h4 h5 h6
  all_goals first
    | rfl
    | omega
    | (congr 1; omega)

/-- The three outcomes of the digit loop of `ParseUint` in base ten: the value
of the digits when they are all decimal and the value fits 64 bits, a syntax
error only when some character is not a decimal digit, a range error
otherwise. -/
theorem ParseUintLoop_cases (cs : List Char) (n : Nat) (hn : n < 2 ^ 64) :
    ((∀ c ∈ cs, 48 ≤ c.toNat ∧ c.toNat ≤ 57) ∧ digitsValue cs n < 2 ^ 64 ∧
      ParseUintLoop 10 cs n = (digitsValue cs n, none)) ∨
    (¬ (∀ c ∈ cs, 48 ≤ c.toNat ∧ c.toNat ≤ 57) ∧
      ParseUintLoop 10 cs n = (0, some .ErrSyntax)) ∨
    ((¬ (∀ c ∈ cs, 48 ≤ c.toNat ∧ c.toNat ≤ 57) ∨ 2 ^ 64 ≤ digitsValue cs n) ∧
      ParseUintLoop 10 cs n = (2 ^ 64 - 1, some .ErrRange)) := by
  induction cs generalizing n with
  | nil =>
    left
    exact ⟨by simp, by simpa [digitsValue] using hn, by simp [digitsValue, ParseUintLoop]⟩
  | cons c cs ih =>
    have hval : digitsValue (c :: cs) n = digitsValue cs (n * 10 + (c.toNat - 48)) := by
      simp [digitsValue]
    by_cases hdec : ∃ d, digitVal c = some d ∧ d < 10
    · obtain ⟨d, hdv, hd⟩ := hdec
      obtain ⟨hc1, hc2, hdc⟩ := digitVal_decimal c d hdv hd
      have hallc : (∀ x ∈ c :: cs, 48 ≤ x.toNat ∧ x.toNat ≤ 57) ↔
          (∀ x ∈ cs, 48 ≤ x.toNat ∧ x.toNat ≤ 57) := by
        simp [hc1, hc2]
      rw [ParseUintLoop_digit c cs n d hdv hd, hval, hallc, ← hdc]
      by_cases hge : 2 ^ 64 ≤ n * 10 + d
      · right; right
        rw [if_pos hge]
        exact ⟨Or.inr (le_trans hge (digitsValue_ge cs (n * 10 + d))), rfl⟩
      · rw [if_neg hge]
        exact ih (n * 10 + d) (by omega)
    · right; left
      have hbad : ∀ d, digitVal c = some d → 10 ≤ d := by
        intro d hdv
        by_contra hlt
        exact hdec ⟨d, hdv, by omega⟩
      refine ⟨?_, ParseUintLoop_syntax c cs n hbad⟩
      intro hall
      exact digitVal_not_decimal c hbad (hall c (by simp))

theorem ParseIntCore_cons (c : Char) (cs : List Char) (n : Int) :
    ParseIntCore (c :: cs) 10 = .ok n ↔
      (if c = '+' ∨ c = '-' then cs else c :: cs) ≠ [] ∧
      (∀ x ∈ (if c = '+' ∨ c = '-' then cs else c :: cs), 48 ≤ x.toNat ∧ x.toNat ≤ 57) ∧
      n = (if c = '-'
        then - (digitsValue (if c = '+' ∨ c = '-' then cs else c :: cs) 0 : Int)
        else (digitsValue (if c = '+' ∨ c = '-' then cs else c :: cs) 0 : Int)) ∧
      - 2 ^ 63 ≤ n ∧ n < 2 ^ 63 := by
  unfold ParseIntCore
  simp only
  generalize (if c = '+' ∨ c = '-' then cs else c :: cs) = ds
  unfold ParseUint
  by_cases hds : ds = []
  · simp [hds]
  · rw [if_neg hds]
    rcases ParseUintLoop_cases ds 0 (by norm_num) with ⟨hall, hlt, hres⟩ | ⟨hall, hres⟩ | ⟨hbad, hres⟩
    · rw [hres]
      simp only [hds, ne_eq, not_false_eq_true, true_and]
      constructor
      · intro h
        refine ⟨hall, ?_⟩
        split_ifs at h with h1 h2 h3
        all_goals simp only [Except.ok.injEq, reduceCtorEq] at h
        all_goals subst h
        all_goals simp_all
        all_goals omega
      · rintro ⟨_, hn, hlo, hhi⟩
        subst hn
        split_ifs with h1 h2 h3 <;> simp_all <;> omega
    · rw [hres]
      simp [hall]
    · rw [hres]
      simp only
      have h1 : ¬ ((2 : Nat) ^ 64 - 1 < 2 ^ 63) := by norm_num
      constructor
      · intro h
        split_ifs at h with h1 h2 h3 <;> simp_all
      · rintro ⟨_, hall, hn, hlo, hhi⟩
        exfalso
        rcases hbad with hbad | hbad
        · exact hbad hall
        · subst hn
          split_ifs at hlo hhi <;> omega

/-- `ParseInt` in base ten succeeds with `n` exactly on the base-10 texts of
the signed 64-bit integer `n`. -/
theorem ParseIntCore_ok_iff (s : List Char) (n : Int) :
    ParseIntCore s 10 = .ok n ↔ denotesInt64 s n := by
  cases s with
  | nil =>
    constructor
    · intro h
      simp [ParseIntCore] at h
    · rintro ⟨sign, digits, hs, _, hne, _⟩
      have : digits = [] := by
        have := congrArg List.length hs
        simp at this
        exact List.eq_nil_of_length_eq_zero (by omega)
      exact absurd this hne
  | cons c cs =>
    rw [ParseIntCore_cons]
    have hplus : ('+' : Char).toNat = 43 := rfl
    have hminus : ('-' : Char).toNat = 45 := rfl
    constructor
    · rintro ⟨hne, hall, hn, hlo, hhi⟩
      by_cases hp : c = '+'
      · subst hp
        have hpm : ¬ (('+' : Char) = '-') := by decide
        simp only [true_or, if_true, hpm, if_false] at hne hall hn
        exact ⟨['+'], cs, rfl, Or.inr (Or.inl rfl), hne, hall, by simpa using hn, hlo, hhi⟩
      · by_cases hm : c = '-'
        · subst hm
          simp only [or_true, if_true] at hne hall hn
          exact ⟨['-'], cs, rfl, Or.inr (Or.inr rfl), hne, hall, by simpa using hn, hlo, hhi⟩
        · simp only [hp, hm, or_self, if_false] at hne hall hn
          exact ⟨[], c :: cs, rfl, Or.inl rfl, hne, hall, by simpa using hn, hlo, hhi⟩
    · rintro ⟨sign, digits, hs, hsign, hne, hall, hn, hlo, hhi⟩
      rcases hsign with rfl | rfl | rfl
      · simp only [List.nil_append] at hs
        subst hs
        have hc := hall c (by simp)
        have hp : c ≠ '+' := by
          intro h
          rw [h, hplus] at hc
          omega
        have hm : c ≠ '-' := by
          intro h
          rw [h, hminus] at hc
          omega
        simp only [hp, hm, or_self, if_false]
        exact ⟨hne, hall, by simpa using hn, hlo, hhi⟩
      · simp only [List.singleton_append, List.cons.injEq] at hs
        obtain ⟨rfl, rfl⟩ := hs
        have hpm : ¬ (('+' : Char) = '-') := by decide
        simp only [true_or, if_true, hpm, if_false]
        exact ⟨hne, hall, by simpa using hn, hlo, hhi⟩
      · simp only [List.singleton_append, List.cons.injEq] at hs
        obtain ⟨rfl, rfl⟩ := hs
        simp only [or_true, if_true]
        exact ⟨hne, hall, by simpa using hn, hlo, hhi⟩

theorem ParseInt_ok_iff (wide : Nat → Bool) (s : String) (n : Int) :
    ParseInt wide s = .ok n ↔ denotesInt64 s.data n := by
  rw [← ParseIntCore_ok_iff]
  unfold ParseInt
  rcases ParseIntCore s.data 10 with e | m <;> simp

theorem ParseInt_error_iff (wide : Nat → Bool) (s : String) :
    (∃ err, ParseInt wide s = .error err) ↔ ¬ ∃ n, denotesInt64 s.data n := by
  constructor
  · rintro ⟨err, herr⟩ ⟨n, hn⟩
    rw [(ParseInt_ok_iff wide s n).2 hn] at herr
    simp at herr
  · intro h
    rcases hp : ParseInt wide s with err | n
    · exact ⟨err, rfl⟩
    · exact absurd ⟨n, (ParseInt_ok_iff wide s n).1 hp⟩ h

/-- The loop of `setup` fails exactly when some argument is not the text of a
64-bit integer; otherwise it appends the denoted integers in argument order. -/
theorem parseSegmentIDs_spec (wide : Nat → Bool) (args : List String) (acc : List Int) :
    ((∃ a ∈ args, ¬ ∃ n, denotesInt64 a.data n) ∧
      ∃ err, parseSegmentIDs wide args acc = .error err) ∨
    ((∀ a ∈ args, ∃ n, denotesInt64 a.data n) ∧
      ∃ ids, parseSegmentIDs wide args acc = .ok (acc ++ ids) ∧
        List.Forall₂ (fun a n => denotesInt64 a.data n) args ids) := by
  induction args generalizing acc with
  | nil => right; exact ⟨by simp, [], by simp [parseSegmentIDs], List.Forall₂.nil⟩
  | cons a rest ih =>
    rcases hp : ParseInt wide a with err | n
    · left
      refine ⟨⟨a, by simp, (ParseInt_error_iff wide a).1 ⟨err, hp⟩⟩, err, ?_⟩
      simp [parseSegmentIDs, hp]
    · have hden := (ParseInt_ok_iff wide a n).1 hp
      have hstep : parseSegmentIDs wide (a :: rest) acc =
          parseSegmentIDs wide rest (acc ++ [n]) := by
        simp [parseSegmentIDs, hp]
      rw [hstep]
      rcases ih (acc ++ [n]) with ⟨⟨b, hb, hbad⟩, herr⟩ | ⟨hall, ids, hids, hf⟩
      · left
        exact ⟨⟨b, by simp [hb], hbad⟩, herr⟩
      · right
        refine ⟨?_, n :: ids, by simpa using hids, List.Forall₂.cons hden hf⟩
        intro x hx
        simp only [List.mem_cons] at hx
        rcases hx with rfl | hx
        · exact ⟨n, hden⟩
        · exact hall x hx

/-- C7: `setup` returns an error exactly when the token is empty, or there is
no positional argument, or some positional argument is not the base-10 text of
a signed 64-bit integer; otherwise it succeeds with the token unchanged and
the integers the arguments denote, in argument order.  When `setup` returns an
error, `main` prints the error and then the usage text to the error stream
and exits with status 22, having made no request, called no serializer and
written nothing to the standard output. -/
theorem setup_usage_error (env : Env) (token : String) (args : List String)
    (tr : List Event) :
    ((∃ err, setup env.wide token args = .error err) ↔
      (token = "" ∨ args = [] ∨ ∃ a ∈ args, ¬ ∃ n, denotesInt64 a.data n)) ∧
    ((token ≠ "" ∧ args ≠ [] ∧ ∀ a ∈ args, ∃ n, denotesInt64 a.data n) →
      ∃ ids, setup env.wide token args = .ok (token, ids) ∧
        List.Forall₂ (fun a n => denotesInt64 a.data n) args ids) ∧
    (∀ err, setup env.wide token args = .error err →
      main env token args tr =
        (22, tr ++ [.stderr ("Error: " ++ err.Error ++ "\n"), .stderr (usage ++ "\n")]) ∧
      requestsOf (main env token args tr).2 = requestsOf tr ∧
      serializedOf (main env token args tr).2 = serializedOf tr ∧
      writesOf (main env token args tr).2 = writesOf tr) := by
  have hsucc : (token ≠ "" ∧ args ≠ [] ∧ ∀ a ∈ args, ∃ n, denotesInt64 a.data n) →
      ∃ ids, setup env.wide token args = .ok (token, ids) ∧
        List.Forall₂ (fun a n => denotesInt64 a.data n) args ids := by
    rintro ⟨ht, ha, hall⟩
    rcases parseSegmentIDs_spec env.wide args [] with ⟨⟨a, hmem, hbad⟩, _⟩ | ⟨_, ids, hids, hf⟩
    · exact absurd (hall a hmem) hbad
    · refine ⟨ids, ?_, hf⟩
      have hlen : ¬ args.length = 0 := by
        intro h
        exact ha (List.eq_nil_of_length_eq_zero h)
      simp only [List.nil_append] at hids
      simp [setup, ht, hlen, hids]
  have hfail : (token = "" ∨ args = [] ∨ ∃ a ∈ args, ¬ ∃ n, denotesInt64 a.data n) →
      ∃ err, setup env.wide token args = .error err := by
    intro h
    by_cases ht : token = ""
    · exact ⟨.text "must provide token using --token flag", by simp [setup, ht]⟩
    · by_cases ha : args = []
      · exact ⟨.text "must provide at least one segment ID", by simp [setup, ht, ha]⟩
      · rcases h with h | h | ⟨a, hmem, hbad⟩
        · exact absurd h ht
        · exact absurd h ha
        · rcases parseSegmentIDs_spec env.wide args [] with ⟨_, err, herr⟩ | ⟨hall, _⟩
          · have hlen : ¬ args.length = 0 := by
              intro h
              exact ha (List.eq_nil_of_length_eq_zero h)
            exact ⟨err, by simp [setup, ht, hlen, herr]⟩
          · exact absurd (hall a hmem) hbad
  refine ⟨⟨?_, hfail⟩, hsucc, ?_⟩
  · rintro ⟨err, herr⟩
    by_contra hnot
    push_neg at hnot
    obtain ⟨ids, hok, _⟩ := hsucc ⟨hnot.1, hnot.2.1, hnot.2.2⟩
    rw [hok] at herr
    simp at herr
  · intro err herr
    have hmain : main env token args tr =
        (22, tr ++ [.stderr ("Error: " ++ err.Error ++ "\n"), .stderr (usage ++ "\n")]) := by
      simp [main, herr]
    rw [hmain]
    refine ⟨rfl, ?_, ?_, ?_⟩
    · simp [requestsOf_append, requestsOf]
    · simp [serializedOf_append, serializedOf]
    · simp [writesOf_append, writesOf]

/-- The theorem of C7 at the sample environment: the second argument is not a
number, so nothing is fetched and the usage text is printed. -/
theorem setup_usage_error_witness :
    main sampleEnv "tok" ["7", "x"] [] =
      (22, [] ++ [.stderr ("Error: " ++
        (GoError.text "strconv.ParseInt: parsing \"x\": invalid syntax").Error ++ "\n"),
        .stderr (usage ++ "\n")]) ∧
    requestsOf (main sampleEnv "tok" ["7", "x"] []).2 = requestsOf [] :=
  have h := (setup_usage_error sampleEnv "tok" ["7", "x"] []).2.2
    (.text "strconv.ParseInt: parsing \"x\": invalid syntax") rfl
  ⟨h.1, h.2.1⟩

/-! ### Decoding the response body -/

theorem storeString_fits (field cur : String) (v : JSON) :
    (storeString field cur v).2 = none ↔ fitsString v = true := by
  cases v <;> simp [storeString, fitsString, UnmarshalTypeError]

theorem storeInt64_fits (field : String) (cur : Int) (v : JSON) :
    (storeInt64 field cur v).2 = none ↔ fitsInt64 v = true := by
  cases v with
  | number lit =>
    simp only [storeInt64, fitsInt64]
    rcases ParseIntCore lit.data 10 with e | n <;> simp
  | _ => simp [storeInt64, fitsInt64]

theorem storeFloat64_fits (pf : String → Option Float64) (field : String) (cur : Float64)
    (v : JSON) :
    (storeFloat64 pf field cur v).2 = none ↔ fitsFloat64 pf v = true := by
  cases v with
  | number lit =>
    simp only [storeFloat64, fitsFloat64]
    rcases pf lit with _ | x <;> simp
  | _ => simp [storeFloat64, fitsFloat64]

theorem saveError_none (a b : Option GoError) :
    saveError a b = none ↔ a = none ∧ b = none := by
  cases a <;> simp [saveError]

theorem storeLatLng_fits (pf : String → Option Float64) (field : String) (cur : stravaLatLng)
    (v : JSON) :
    (storeLatLng pf field cur v).2 = none ↔ fitsLatLng pf v = true := by
  cases v with
  | array elems =>
    match elems with
    | [] => simp [storeLatLng, fitsLatLng]
    | [a] => simp [storeLatLng, fitsLatLng, storeFloat64_fits]
    | a :: b :: rest =>
      simp [storeLatLng, fitsLatLng, saveError_none, storeFloat64_fits]
  | _ => simp [storeLatLng, fitsLatLng]

theorem storeMember_fits (pf : String → Option Float64) (st : Segment × Option GoError)
    (m : String × JSON) :
    (storeMember pf st m).2 = none ↔ st.2 = none ∧ memberFits pf m = true := by
  unfold storeMember memberFits
  rcases fieldFor m.1 with _ | f
  · simp
  · cases f <;>
      simp [saveError_none, storeString_fits, storeInt64_fits, storeLatLng_fits]

theorem foldl_storeMember_fits (pf : String → Option Float64) (members : List (String × JSON))
    (st : Segment × Option GoError) :
    (members.foldl (storeMember pf) st).2 = none ↔
      st.2 = none ∧ members.all (memberFits pf) = true := by
  induction members generalizing st with
  | nil => simp
  | cons m rest ih =>
    rw [List.foldl_cons, ih, storeMember_fits]
    simp [and_assoc]

/-- The decoder accepts exactly the values described by `fitsSegment`. -/
theorem storeSegment_fits (pf : String → Option Float64) (v : JSON) :
    (storeSegment pf {} v).2 = none ↔ fitsSegment pf v = true := by
  cases v with
  | object members => simp [storeSegment, fitsSegment, foldl_storeMember_fits]
  | _ => simp [storeSegment, fitsSegment]

theorem Decode_ok_iff (pf : String → Option Float64) (v : JSON) (segment : Segment) :
    Decode pf (.ok v) = .ok segment ↔
      (storeSegment pf {} v).2 = none ∧ (storeSegment pf {} v).1 = segment := by
  rcases h : storeSegment pf {} v with ⟨seg, _ | e⟩ <;> simp [Decode, h]

theorem Decode_error_iff (pf : String → Option Float64) (v : JSON) :
    (∃ e, Decode pf (.ok v) = .error e) ↔ fitsSegment pf v = false := by
  rw [← Bool.not_eq_true, ← storeSegment_fits]
  rcases h : storeSegment pf {} v with ⟨seg, _ | e⟩ <;> simp [Decode, h]

/-! A member whose key selects another field leaves a field as it is. -/

theorem storeMember_Name (pf : String → Option Float64) (st : Segment × Option GoError)
    (m : String × JSON) (h : fieldFor m.1 ≠ some .Name) :
    (storeMember pf st m).1.Name = st.1.Name := by
  unfold storeMember
  rcases hf : fieldFor m.1 with _ | f
  · rfl
  · cases f
    · exact absurd hf h
    all_goals rfl

theorem storeMember_Start (pf : String → Option Float64) (st : Segment × Option GoError)
    (m : String × JSON) (h : fieldFor m.1 ≠ some .Start) :
    (storeMember pf st m).1.Start = st.1.Start := by
  unfold storeMember
  rcases hf : fieldFor m.1 with _ | f
  · rfl
  · cases f
    case Start => exact absurd hf h
    all_goals rfl

theorem storeMember_End (pf : String → Option Float64) (st : Segment × Option GoError)
    (m : String × JSON) (h : fieldFor m.1 ≠ some .End) :
    (storeMember pf st m).1.End = st.1.End := by
  unfold storeMember
  rcases hf : fieldFor m.1 with _ | f
  · rfl
  · cases f
    case End => exact absurd hf h
    all_goals rfl

theorem foldl_storeMember_Name (pf : String → Option Float64) (members : List (String × JSON))
    (st : Segment × Option GoError) (h : ∀ m ∈ members, fieldFor m.1 ≠ some .Name) :
    (members.foldl (storeMember pf) st).1.Name = st.1.Name := by
  induction members generalizing st with
  | nil => rfl
  | cons m rest ih =>
    rw [List.foldl_cons, ih _ (fun x hx => h x (by simp [hx])),
      storeMember_Name pf st m (h m (by simp))]

theorem foldl_storeMember_Start (pf : String → Option Float64) (members : List (String × JSON))
    (st : Segment × Option GoError) (h : ∀ m ∈ members, fieldFor m.1 ≠ some .Start) :
    (members.foldl (storeMember pf) st).1.Start = st.1.Start := by
  induction members generalizing st with
  | nil => rfl
  | cons m rest ih =>
    rw [List.foldl_cons, ih _ (fun x hx => h x (by simp [hx])),
      storeMember_Start pf st m (h m (by simp))]

theorem foldl_storeMember_End (pf : String → Option Float64) (members : List (String × JSON))
    (st : Segment × Option GoError) (h : ∀ m ∈ members, fieldFor m.1 ≠ some .End) :
    (members.foldl (storeMember pf) st).1.End = st.1.End := by
  induction members generalizing st with
  | nil => rfl
  | cons m rest ih =>
    rw [List.foldl_cons, ih _ (fun x hx => h x (by simp [hx])),
      storeMember_End pf st m (h m (by simp))]

/-- An array shorter than the Go array leaves the elements it does not reach
at zero. -/
theorem storeLatLng_short (pf : String → Option Float64) (field : String) (cur : stravaLatLng)
    (elems : List JSON) :
    (elems = [] → (storeLatLng pf field cur (.array elems)).1.at0 = Float64.zero) ∧
    (elems.length < 2 → (storeLatLng pf field cur (.array elems)).1.at1 = Float64.zero) := by
  match elems with
  | [] => simp [storeLatLng]
  | [a] => simp [storeLatLng]
  | a :: b :: rest => simp [storeLatLng]

/-- What `segmentWaypoints` returns on a response with status 200. -/
theorem segmentWaypoints_200 (env : Env) (segmentID : Int) (token : String)
    (tr : List Event) (req : Request) (res : Response)
    (hreq : env.NewRequestWithContext "GET" (segmentURL segmentID) = .ok req)
    (hdo : env.Do tr (authorized req token) = .ok res)
    (h200 : res.StatusCode = 200) :
    (segmentWaypoints env segmentID token tr).1 =
      (match Decode env.ParseFloat res.Body with
       | .error err =>
         .error (.wrapped ("decoding segment response for segment ID:" ++
           fmtQ env.wide segmentID ++ ": ") err)
       | .ok segment => .ok [startWaypoint segment, endWaypoint segment]) := by
  simp only [segmentURL, authorized] at hreq hdo
  rcases hdec : Decode env.ParseFloat res.Body with e | segment <;>
    simp [segmentWaypoints, hreq, hdo, h200, hdec, startWaypoint, endWaypoint]

theorem storeSegment_short_Start (pf : String → Option Float64)
    (pre post : List (String × JSON)) (key : String) (elems : List JSON)
    (hkey : fieldFor key = some .Start)
    (hpost : ∀ m ∈ post, fieldFor m.1 ≠ some .Start) :
    (elems = [] →
      (storeSegment pf {} (.object (pre ++ (key, .array elems) :: post))).1.Start.at0 =
        Float64.zero) ∧
    (elems.length < 2 →
      (storeSegment pf {} (.object (pre ++ (key, .array elems) :: post))).1.Start.at1 =
        Float64.zero) := by
  simp only [storeSegment, List.foldl_append, List.foldl_cons]
  rw [foldl_storeMember_Start pf post _ hpost]
  have hm : ∀ st : Segment × Option GoError,
      (storeMember pf st (key, .array elems)).1.Start =
        (storeLatLng pf "start_latlng" st.1.Start (.array elems)).1 := by
    intro st
    simp [storeMember, hkey]
  rw [hm]
  exact storeLatLng_short pf _ _ elems

theorem storeSegment_short_End (pf : String → Option Float64)
    (pre post : List (String × JSON)) (key : String) (elems : List JSON)
    (hkey : fieldFor key = some .End)
    (hpost : ∀ m ∈ post, fieldFor m.1 ≠ some .End) :
    (elems = [] →
      (storeSegment pf {} (.object (pre ++ (key, .array elems) :: post))).1.End.at0 =
        Float64.zero) ∧
    (elems.length < 2 →
      (storeSegment pf {} (.object (pre ++ (key, .array elems) :: post))).1.End.at1 =
        Float64.zero) := by
  simp only [storeSegment, List.foldl_append, List.foldl_cons]
  rw [foldl_storeMember_End pf post _ hpost]
  have hm : ∀ st : Segment × Option GoError,
      (storeMember pf st (key, .array elems)).1.End =
        (storeLatLng pf "end_latlng" st.1.End (.array elems)).1 := by
    intro st
    simp [storeMember, hkey]
  rw [hm]
  exact storeLatLng_short pf _ _ elems

/-- C6, as stated, fails: the response for segment 8 has status 200 and the
empty JSON object as its body, in which the name and both coordinate pairs are
missing, and `segmentWaypoints` returns two waypoints at 0, 0 whose names are
the bare suffixes; likewise a body whose start pair has one element and whose
end pair has three decodes without an error. -/
theorem missing_fields_are_accepted :
    (segmentWaypoints sampleEnv 8 "tok" []).1 = .ok [
      { Point := { Latitude := Float64.zero, Longitude := Float64.zero,
                   Elevation := { data := Float64.zero, notNull := false } },
        Name := " (start)", Comment := "", Description := "", Source := "",
        Symbol := "Flag, Green", Typ := "user" },
      { Point := { Latitude := Float64.zero, Longitude := Float64.zero,
                   Elevation := { data := Float64.zero, notNull := false } },
        Name := " (end)", Comment := "", Description := "", Source := "",
        Symbol := "Flag, Red", Typ := "user" }] ∧
    Decode sampleParseFloat (.ok lopsidedBody) =
      .ok { Name := "", ID := 0,
            Start := { at0 := ⟨0x3FF8000000000000⟩, at1 := Float64.zero },
            End := { at0 := ⟨0x400C000000000000⟩, at1 := ⟨0x4012000000000000⟩ } } := by
  constructor
  · decide
  · decide

/-- C6, amended: on a response with status 200, `segmentWaypoints` returns a
decode error and no waypoints when no JSON value can be read from the body,
and when the value read does not fit the segment struct: it is neither an
object nor `null`, or some member gives `name` a value other than a string or
`null`, gives `id` a value other than a 64-bit integer or `null`, or gives a
coordinate field a value other than `null` or an array whose first and second
element are numbers in the `float64` range or `null`.  Every other value is
decoded and gives the two waypoints of the decoded segment; in particular a
field that no member of the object selects keeps its zero value (empty name,
coordinates 0, 0), and a coordinate array with fewer than two elements leaves
the coordinates it does not reach at 0. -/
theorem segmentWaypoints_decoding (env : Env) (segmentID : Int) (token : String)
    (tr : List Event) (req : Request) (res : Response)
    (hreq : env.NewRequestWithContext "GET" (segmentURL segmentID) = .ok req)
    (hdo : env.Do tr (authorized req token) = .ok res)
    (h200 : res.StatusCode = 200) :
    (∀ e, res.Body = .error e →
      (segmentWaypoints env segmentID token tr).1 =
        .error (.wrapped ("decoding segment response for segment ID:" ++
          fmtQ env.wide segmentID ++ ": ") e)) ∧
    (∀ v, res.Body = .ok v → fitsSegment env.ParseFloat v = false →
      ∃ e, (segmentWaypoints env segmentID token tr).1 =
        .error (.wrapped ("decoding segment response for segment ID:" ++
          fmtQ env.wide segmentID ++ ": ") e)) ∧
    (∀ v, res.Body = .ok v → fitsSegment env.ParseFloat v = true →
      ∃ segment,
        (segmentWaypoints env segmentID token tr).1 =
          .ok [startWaypoint segment, endWaypoint segment] ∧
        ∀ members, v = .object members →
          ((∀ m ∈ members, fieldFor m.1 ≠ some .Name) → segment.Name = "") ∧
          ((∀ m ∈ members, fieldFor m.1 ≠ some .Start) →
            segment.Start = { at0 := Float64.zero, at1 := Float64.zero }) ∧
          ((∀ m ∈ members, fieldFor m.1 ≠ some .End) →
            segment.End = { at0 := Float64.zero, at1 := Float64.zero }) ∧
          (∀ pre key elems post, members = pre ++ (key, .array elems) :: post →
            fieldFor key = some .Start → (∀ m ∈ post, fieldFor m.1 ≠ some .Start) →
            (elems = [] → segment.Start.at0 = Float64.zero) ∧
            (elems.length < 2 → segment.Start.at1 = Float64.zero)) ∧
          (∀ pre key elems post, members = pre ++ (key, .array elems) :: post →
            fieldFor key = some .End → (∀ m ∈ post, fieldFor m.1 ≠ some .End) →
            (elems = [] → segment.End.at0 = Float64.zero) ∧
            (elems.length < 2 → segment.End.at1 = Float64.zero))) := by
  have hsw := segmentWaypoints_200 env segmentID token tr req res hreq hdo h200
  refine ⟨?_, ?_, ?_⟩
  · intro e hbody
    rw [hsw, hbody]
    rfl
  · intro v hbody hfit
    obtain ⟨e, he⟩ := (Decode_error_iff env.ParseFloat v).2 hfit
    refine ⟨e, ?_⟩
    rw [hsw, hbody, he]
  · intro v hbody hfit
    have hnone := (storeSegment_fits env.ParseFloat v).2 hfit
    have hdec := (Decode_ok_iff env.ParseFloat v _).2 ⟨hnone, rfl⟩
    refine ⟨(storeSegment env.ParseFloat {} v).1, ?_, ?_⟩
    · rw [hsw, hbody, hdec]
    · intro members hv
      subst hv
      refine ⟨?_, ?_, ?_, ?_, ?_⟩
      · intro h
        simp only [storeSegment]
        rw [foldl_storeMember_Name env.ParseFloat members _ h]
      · intro h
        simp only [storeSegment]
        rw [foldl_storeMember_Start env.ParseFloat members _ h]
      · intro h
        simp only [storeSegment]
        rw [foldl_storeMember_End env.ParseFloat members _ h]
      · intro pre key elems post hm hkey hpost
        subst hm
        exact storeSegment_short_Start env.ParseFloat pre post key elems hkey hpost
      · intro pre key elems post hm hkey hpost
        subst hm
        exact storeSegment_short_End env.ParseFloat pre post key elems hkey hpost

/-- The theorem of C6 at the sample environment: the empty object answered for
segment 8 is decoded, and every field keeps its zero value. -/
theorem segmentWaypoints_decoding_witness :
    ∃ segment,
      (segmentWaypoints sampleEnv 8 "tok" []).1 =
        .ok [startWaypoint segment, endWaypoint segment] ∧
      segment.Name = "" ∧
      segment.Start = { at0 := Float64.zero, at1 := Float64.zero } ∧
      segment.End = { at0 := Float64.zero, at1 := Float64.zero } :=
  have h := (segmentWaypoints_decoding sampleEnv 8 "tok" []
    { Method := "GET", URL := segmentURL 8 }
    { StatusCode := 200, Status := "200 OK", Body := .ok (.object []) }
    rfl rfl rfl).2.2 (.object []) rfl rfl
  h.elim (fun segment hs =>
    have hm := hs.2 [] rfl
    ⟨segment, hs.1, hm.1 (by simp), hm.2.1 (by simp), hm.2.2.1 (by simp)⟩)

end StravaSegmentWaypoints
